import Mathlib

/-!
# Decision Trace: the in-page action-interception pipeline

A shallow embedding of `src/content/detector.js` (the content script that
intercepts clicks), of `src/content/modal.js` (the Decision Surface it opens),
of the parts of `src/utils/storage.js` it calls and of the mood selector of
`src/popup/popup.js`, followed by theorems about the embedded functions.

Conventions of the embedding.

* A JavaScript string is a list of characters, one `Char` per UTF-16 code
  unit. Every string the program compares a lower-cased text with is an ASCII
  literal, so `toLowerCase` is exact where its result holds ASCII letters (the
  letters A to Z, the Kelvin sign and the dotted capital I) and lets any other
  character stand for its lower-case form.
* A function that can throw returns an `Option`, `none` when it throws.
* A JavaScript value that may be `null` or `undefined` is an `Option`.
* A DOM element is referred to by a `NodeId`; two references are the same
  element (`===`) exactly when the ids are equal. The document is a map from
  ids to the properties the detector reads.
* Clock readings (`Date.now()`) are integers, in milliseconds.
* A function with side effects returns its new state and the list of the
  effects it performs, in program order.
* A timer is pending until the event of its firing; an `await` and what
  follows it are run at once, in program order.
-/

namespace DecisionTrace

/-! ## JavaScript strings -/

abbrev JSString := List Char

/-- The lower-case form of one character. The letters A to Z are lowered; the
Kelvin sign U+212A becomes `k` and the dotted capital I U+0130 becomes `i`
followed by the combining dot U+0307, the only two characters beyond ASCII
whose lower-case form holds an ASCII letter; any other character stands for
its own lower-case form, which is not empty and holds no ASCII character. -/
def lowerChar (c : Char) : List Char :=
  if c = Char.ofNat 0x212A then ['k']
  else if c = Char.ofNat 0x130 then ['i', Char.ofNat 0x307]
  else [c.toLower]

/-- String.prototype.toLowerCase. -/
def toLowerCase (s : JSString) : JSString := s.flatMap lowerChar

/-- String.prototype.includes: `kw` occurs in `s` as a contiguous run. -/
def includes (s kw : JSString) : Bool := s.tails.any (fun t => kw.isPrefixOf t)

/-- String.prototype.substring on in-range or over-long indices: the two
indices are swapped when out of order and clamped to the length. -/
def substring (s : JSString) (i j : Nat) : JSString :=
  (s.take (max i j)).drop (min i j)

/-- The code points String.prototype.trim strips: ECMAScript WhiteSpace and
LineTerminator. -/
def isTrimChar (c : Char) : Bool :=
  let n := c.toNat
  n = 0x9 || n = 0xA || n = 0xB || n = 0xC || n = 0xD || n = 0x20 || n = 0xA0 ||
  n = 0x1680 || (0x2000 ≤ n && n ≤ 0x200A) || n = 0x2028 || n = 0x2029 ||
  n = 0x202F || n = 0x205F || n = 0x3000 || n = 0xFEFF

/-- String.prototype.trim. -/
def trim (s : JSString) : JSString :=
  ((s.dropWhile isTrimChar).reverse.dropWhile isTrimChar).reverse

/-- Truthiness of a value that is a string, `null` or `undefined`. -/
def truthy : Option JSString → Bool
  | none => false
  | some s => !s.isEmpty

/-- The operator `a || b` on such values. -/
def jsOr (a b : Option JSString) : Option JSString :=
  if truthy a then a else b

/-- A property value that need not be a string: `undefined` (or `null`), a
string, or a number, of which only its truthiness matters (a number is falsy
when it is 0 or NaN). -/
inductive JSValue where
  | undefined
  | str (s : JSString)
  | num (nonZero : Bool)
  deriving DecidableEq

def JSValue.ofOption : Option JSString → JSValue
  | none => .undefined
  | some s => .str s

def JSValue.truthy : JSValue → Bool
  | .undefined => false
  | .str s => !s.isEmpty
  | .num nonZero => nonZero

/-- The operator `a || b`. -/
def JSValue.or (a b : JSValue) : JSValue :=
  if a.truthy then a else b

/-! ## The document -/

abbrev NodeId := Nat

/-- The properties of an element the detector reads. The fields `role`,
`type`, `href`, `name`, `ariaLabel`, `title` and `classAttr` are the results
of `getAttribute`, `none` when the attribute is absent. `innerText` and
`textContent` are the properties of these names, `none` when the element has
no such property (as `innerText` on SVG elements). `value` is the property
`value`: a string on form controls, a number on `li`, `progress` and `meter`,
`undefined` elsewhere. -/
structure Node where
  tagName : JSString
  role : Option JSString
  type : Option JSString
  href : Option JSString
  name : Option JSString
  ariaLabel : Option JSString
  title : Option JSString
  classAttr : Option JSString
  isSVGElement : Bool
  id : JSString
  innerText : Option JSString
  textContent : Option JSString
  value : JSValue
  parentElement : Option NodeId

/-- The property `className` when it is a string, which it is unless the
element is an SVG element: the value of the class attribute, empty when the
attribute is absent. On an SVG element the property is an object, for which
the detector reads the empty string. -/
def Node.className (n : Node) : Option JSString :=
  if n.isSVGElement then none else some (n.classAttr.getD [])

abbrev Dom := NodeId → Node

/-! ## Categories and keyword tables (detector.js, lines 11-29) -/

inductive Category where
  | purchase
  | signup
  | download
  | important
  deriving DecidableEq, Repr

abbrev KeywordTable := List (Category × List JSString)

/-- The table `keywordsByLevel.relaxed`, in declaration order. -/
def keywordsRelaxed : KeywordTable :=
  [ (.purchase, ["buy now".toList, "purchase".toList, "checkout".toList, "place order".toList,
      "complete purchase".toList, "place your order".toList, "pay now".toList]),
    (.signup, ["create account".toList, "register".toList, "sign up".toList]),
    (.important, ["confirm payment".toList, "subscribe".toList]) ]

/-- The table `keywordsByLevel.balanced`, in declaration order. -/
def keywordsBalanced : KeywordTable :=
  [ (.purchase, ["buy".toList, "purchase".toList, "add to cart".toList, "add to bag".toList,
      "checkout".toList, "pay now".toList, "place order".toList, "order now".toList,
      "secure checkout".toList]),
    (.signup, ["sign up".toList, "register".toList, "create account".toList, "get started".toList,
      "join".toList, "subscribe now".toList]),
    (.download, ["download".toList, "install".toList, "get app".toList, "get it now".toList]),
    (.important, ["confirm".toList, "submit payment".toList, "continue to payment".toList,
      "subscribe".toList, "upgrade".toList]) ]

/-- The table `keywordsByLevel.strict`, in declaration order. -/
def keywordsStrict : KeywordTable :=
  [ (.purchase, ["buy".toList, "purchase".toList, "add".toList, "cart".toList, "bag".toList,
      "checkout".toList, "pay".toList, "order".toList, "shop".toList, "pay".toList]),
    (.signup, ["sign".toList, "register".toList, "create".toList, "start".toList, "join".toList,
      "account".toList, "signup".toList]),
    (.download, ["download".toList, "install".toList, "get".toList, "save".toList, "file".toList]),
    (.important, ["confirm".toList, "submit".toList, "continue".toList, "next".toList, "ok".toList,
      "yes".toList, "agree".toList, "subscribe".toList, "allow".toList, "proceed".toList]) ]

/-- The property names an object literal inherits from `Object.prototype`. -/
def objectPrototypeKeys : List JSString :=
  [ "constructor".toList, "hasOwnProperty".toList, "isPrototypeOf".toList,
    "propertyIsEnumerable".toList, "toLocaleString".toList, "toString".toList,
    "valueOf".toList, "__proto__".toList, "__defineGetter__".toList,
    "__defineSetter__".toList, "__lookupGetter__".toList, "__lookupSetter__".toList ]

/-- The property key a sensitivity value is converted to: `undefined` reads
the key "undefined". -/
def propertyKey : Option JSString → JSString
  | none => "undefined".toList
  | some s => s

/-- The entries (`Object.entries`) of the value of `keywordsByLevel[key]`, and
`none` when that value is `undefined`. The three own keys hold the tables. A
key inherited from `Object.prototype` holds a function (or, for `__proto__`,
the prototype object): a truthy value without enumerable own properties, so
its list of entries is empty. -/
def keywordsByLevel (key : JSString) : Option KeywordTable :=
  if key = "relaxed".toList then some keywordsRelaxed
  else if key = "balanced".toList then some keywordsBalanced
  else if key = "strict".toList then some keywordsStrict
  else if key ∈ objectPrototypeKeys then some []
  else none

/-- The entries of `keywordsByLevel[sensitivity] || keywordsByLevel.balanced`
(detector.js, line 180). -/
def currentKeywords (sensitivity : Option JSString) : KeywordTable :=
  match keywordsByLevel (propertyKey sensitivity) with
  | some table => table
  | none => keywordsBalanced

/-! ## getElementText (detector.js, lines 195-204) -/

/-- The value of the chain of `||` of `getElementText`. -/
def textCandidate (el : Node) : JSValue :=
  (((((JSValue.ofOption el.innerText).or (JSValue.ofOption el.textContent)).or
    (JSValue.ofOption el.ariaLabel)).or (JSValue.ofOption el.title)).or el.value).or (.str [])

/-- The function `getElementText`: `none` when `.substring` is called on a
value that is not a string and so throws a TypeError. -/
def getElementText (el : Node) : Option JSString :=
  match textCandidate el with
  | .str s => some (substring s 0 100)
  | _ => none

/-! ## detectActionType (detector.js, lines 174-193) -/

/-- The test of `keywords.some(...)`: the keyword occurs in one of the four
fields. -/
def keywordHits (text href name id kw : JSString) : Bool :=
  includes text kw || includes href kw || includes name kw || includes id kw

/-- The loop over the entries of the table, returning at the first category
one of whose keywords hits. -/
def detectLoop (text href name id : JSString) : KeywordTable → Option Category
  | [] => none
  | (type, keywords) :: rest =>
    if keywords.any (keywordHits text href name id) then some type
    else detectLoop text href name id rest

/-- The value of `attr?.toLowerCase() || ''`. -/
def lowerOrEmpty (attr : Option JSString) : JSString :=
  ((jsOr (attr.map toLowerCase) (some [])).getD [])

/-- The function `detectActionType`: `none` when `getElementText` throws, and
otherwise `some` of the category or `null` it returns. -/
def detectActionType (sensitivity : Option JSString) (element : Node) :
    Option (Option Category) :=
  match getElementText element with
  | none => none
  | some extracted =>
    let text := toLowerCase extracted
    let href := lowerOrEmpty element.href
    let name := lowerOrEmpty element.name
    let id := lowerOrEmpty (some element.id)
    some (detectLoop text href name id (currentKeywords sensitivity))

/-! ## findRelevantElement (detector.js, lines 150-172) -/

/-- The condition of the `if` in the loop body. -/
def isActionable (current : Node) : Bool :=
  let tag := toLowerCase current.tagName
  let role := current.role.map toLowerCase
  let type := current.type.map toLowerCase
  let className := match current.className with
    | some c => toLowerCase c
    | none => []
  tag = "button".toList ||
  tag = "a".toList ||
  role = some "button".toList ||
  role = some "link".toList ||
  (tag = "input".toList && (type = some "submit".toList || type = some "button".toList)) ||
  includes className "btn".toList ||
  includes className "button".toList

/-- The loop `while (current && depth < 6)`, with `steps = 6 - depth` the
number of iterations still allowed. -/
def findLoop (dom : Dom) : Nat → Option NodeId → Option NodeId
  | 0, _ => none
  | _ + 1, none => none
  | steps + 1, some current =>
    if isActionable (dom current) then some current
    else findLoop dom steps (dom current).parentElement

def findRelevantElement (dom : Dom) (element : NodeId) : Option NodeId :=
  findLoop dom 6 (some element)

/-! ## Controller state and shouldThrottle (detector.js, lines 7-9, 206-217) -/

/-- The module-level variables of the content script. -/
structure Controller where
  detectionEnabled : Bool
  sensitivity : Option JSString
  enabledCategories : List Category
  lastTriggerTime : Int
  lastElement : Option NodeId
  deriving DecidableEq

/-- The call `shouldThrottle(el)` when `Date.now()` reads `now`: the result and
the state afterwards. -/
def shouldThrottle (st : Controller) (el : NodeId) (now : Int) : Bool × Controller :=
  if st.lastElement = some el ∧ now - st.lastTriggerTime < 10000 then (true, st)
  else if now - st.lastTriggerTime < 2500 then (true, st)
  else (false, { st with lastTriggerTime := now, lastElement := some el })

/-! ## Persistence (storage.js, lines 5-36) -/

structure DecisionEntry where
  id : JSString
  timestamp : JSString
  url : JSString
  pageTitle : JSString
  reason : JSString
  mood : JSString
  evidence : JSString
  deriving DecidableEq

/-- The contents of `chrome.storage.local` the pipeline touches. -/
structure Store where
  decisions : List DecisionEntry
  pendingContext : Option JSString
  deriving DecidableEq

/-- Whether the store fails the next read and the next write. -/
structure StoreFaults where
  getFails : Bool
  setFails : Bool

def hexDigit (v : Nat) : Char := "0123456789abcdef".toList.getD v '0'

/-- The replacement of every `x` and `y` of the template, left to right; `k`
counts the calls of the random source so far and `rand k` is the value of
`Math.random() * 16 | 0` at call `k`. -/
def fillTemplate (rand : Nat → Fin 16) : List Char → Nat → List Char
  | [], _ => []
  | c :: cs, k =>
    if c = 'x' then hexDigit (rand k).val :: fillTemplate rand cs (k + 1)
    else if c = 'y' then hexDigit (((rand k).val &&& 3) ||| 8) :: fillTemplate rand cs (k + 1)
    else c :: fillTemplate rand cs k

def generateId (rand : Nat → Fin 16) : JSString :=
  fillTemplate rand "xxxxxxxx-xxxx-4xxx-yxxx-xxxxxxxxxxxx".toList 0

/-- A failed read is caught and gives the empty list. -/
def getAllDecisions (store : Store) (faults : StoreFaults) : List DecisionEntry :=
  if faults.getFails then [] else store.decisions

/-- The result of `saveDecision(entry)` and the store afterwards. -/
def saveDecision (store : Store) (faults : StoreFaults) (entry : DecisionEntry) : Bool × Store :=
  let decisions := getAllDecisions store faults ++ [entry]
  if faults.setFails then (false, store)
  else (true, { store with decisions := decisions })

/-! ## handleClick (detector.js, lines 68-148) -/

structure ClickEvent where
  ctrlKey : Bool
  metaKey : Bool
  shiftKey : Bool
  target : NodeId

structure ActionInfo where
  url : JSString
  title : JSString
  actionType : Category
  actionText : JSString
  timestamp : JSString
  evidence : JSString
  deriving DecidableEq

/-- What the handler reads from its surroundings during one run; `readFails`
says that `chrome.storage.local.get` rejects. -/
structure Env where
  dom : Dom
  now : Int
  readFails : Bool
  pendingContext : Option JSString
  href : JSString
  title : JSString
  isoTime : JSString

inductive Effect where
  | preventDefault
  | stopPropagation
  | storageGet (keys : List JSString)
  | consoleLog
  | modalInject (info : ActionInfo) (element : NodeId)
  | saveDecision (entry : DecisionEntry) (ok : Bool)
  | storageRemove (keys : List JSString)
  | removeClickListener
  | elementClick (element : NodeId)
  | setTimeoutAddClickListener (delay : Nat)
  deriving DecidableEq

/-- The effects at which the running function is suspended (an `await`). -/
def Effect.isSuspension : Effect → Bool
  | .storageGet _ => true
  | .saveDecision _ _ => true
  | _ => false

def pendingContextKey : JSString := "pendingContext".toList

/-- The object `actionInfo` assembled at lines 94-104 from the text that
`getElementText` returned at line 96. -/
def buildActionInfo (env : Env) (extracted : JSString) (actionType : Category) : ActionInfo :=
  let contextEvidence := (jsOr env.pendingContext (some [])).getD []
  let actionText := substring (trim extracted) 0 60
  { url := env.href, title := env.title, actionType := actionType,
    actionText := actionText, timestamp := env.isoTime, evidence := contextEvidence }

/-- The part of `handleClick` after the throttle check (lines 88-147), for the
resolved element and its category. The function ends after the read of
pendingContext when the read rejects, and at line 96 when `getElementText`
throws. -/
def intercept (env : Env) (element : NodeId) (actionType : Category) : List Effect :=
  [ .preventDefault, .stopPropagation, .storageGet [pendingContextKey] ] ++
    (if env.readFails then []
     else
      match getElementText (env.dom element) with
      | none => []
      | some extracted =>
        [ .consoleLog, .modalInject (buildActionInfo env extracted actionType) element ])

/-- The function `handleClick`. When `detectActionType` throws, the function
ends there, before any effect. -/
def handleClick (st : Controller) (env : Env) (event : ClickEvent) : Controller × List Effect :=
  if !st.detectionEnabled then (st, [])
  else if event.ctrlKey || event.metaKey || event.shiftKey then (st, [])
  else
    match findRelevantElement env.dom event.target with
    | none => (st, [])
    | some element =>
      match detectActionType st.sensitivity (env.dom element) with
      | none => (st, [])
      | some none => (st, [])
      | some (some actionType) =>
        if !st.enabledCategories.contains actionType then (st, [])
        else
          match shouldThrottle st element env.now with
          | (true, st1) => (st1, [])
          | (false, st1) => (st1, intercept env element actionType)

/-- The closure `resumeAction` (lines 109-115). -/
def resumeAction (element : NodeId) : List Effect :=
  [ .removeClickListener, .elementClick element, .setTimeoutAddClickListener 500 ]

/-- The payload the Decision Surface passes to the save callback. -/
structure SaveData where
  reason : JSString
  mood : JSString

/-- The save callback (lines 120-138): the store afterwards and the effects.
The removal of the pending context is applied to the store where it is
requested. -/
def onSave (info : ActionInfo) (element : NodeId) (rand : Nat → Fin 16) (store : Store)
    (faults : StoreFaults) (data : SaveData) : Store × List Effect :=
  let entry : DecisionEntry :=
    { id := generateId rand, timestamp := info.timestamp, url := info.url,
      pageTitle := info.title, reason := data.reason, mood := data.mood,
      evidence := info.evidence }
  let saved := saveDecision store faults entry
  let store1 : Store := { saved.2 with pendingContext := none }
  (store1,
    [.saveDecision entry saved.1, .storageRemove [pendingContextKey], .consoleLog]
      ++ resumeAction element)

/-- The skip callback (lines 139-144). -/
def onSkip (element : NodeId) (store : Store) : Store × List Effect :=
  (store, [.consoleLog] ++ resumeAction element)

/-! ## Specification-side notions -/

/-- The acceptance condition of a click, as the specification lists it. -/
def Accepted (st : Controller) (env : Env) (event : ClickEvent) : Prop :=
  st.detectionEnabled = true ∧ event.ctrlKey = false ∧ event.metaKey = false ∧
  event.shiftKey = false ∧
  ∃ el, findRelevantElement env.dom event.target = some el ∧
    ∃ cat, detectActionType st.sensitivity (env.dom el) = some (some cat) ∧
      cat ∈ st.enabledCategories ∧ (shouldThrottle st el env.now).1 = false

/-- The node reached from `start` by `d` parent steps, if there is one. -/
def ancestor (dom : Dom) : Nat → NodeId → Option NodeId
  | 0, start => some start
  | d + 1, start =>
    match (dom start).parentElement with
    | none => none
    | some p => ancestor dom d p

/-- The qualification of a node, in the words of the specification. -/
def Qualifies (n : Node) : Prop :=
  toLowerCase n.tagName = "a".toList ∨ toLowerCase n.tagName = "button".toList ∨
  (∃ r, n.role = some r ∧ (toLowerCase r = "button".toList ∨ toLowerCase r = "link".toList)) ∨
  (toLowerCase n.tagName = "input".toList ∧
    ∃ t, n.type = some t ∧ (toLowerCase t = "submit".toList ∨ toLowerCase t = "button".toList)) ∨
  (∃ c, n.className = some c ∧
    (includes (toLowerCase c) "btn".toList = true ∨ includes (toLowerCase c) "button".toList = true))

/-- The first value of the list that is present and non-empty, and the empty
string when there is none. -/
def firstNonEmpty : List (Option JSString) → JSString
  | [] => []
  | none :: rest => firstNonEmpty rest
  | some s :: rest => if s = [] then firstNonEmpty rest else s

/-- A category has a keyword of the table that occurs in one of the fields. -/
def CategoryHits (table : KeywordTable) (text href name id : JSString) (c : Category) : Prop :=
  ∃ kws, (c, kws) ∈ table ∧ ∃ kw ∈ kws,
    includes text kw = true ∨ includes href kw = true ∨ includes name kw = true ∨
      includes id kw = true

/-- The position of a category in the fixed order purchase, signup, download,
important. -/
def Category.rank : Category → Nat
  | .purchase => 0
  | .signup => 1
  | .download => 2
  | .important => 3

/-! ## Sample inputs -/

/-- An element without attributes, text or parent. -/
def plainDiv : Node :=
  { tagName := "DIV".toList, role := none, type := none, href := none, name := none,
    ariaLabel := none, title := none, classAttr := none, isSVGElement := false, id := [],
    innerText := some [], textContent := some [], value := .undefined,
    parentElement := none }

/-- A button labelled "Buy now". -/
def buyButton : Node :=
  { plainDiv with tagName := "BUTTON".toList, innerText := some "Buy now".toList,
                  textContent := some "Buy now".toList }

/-- A link labelled "Sign up". -/
def signupLink : Node :=
  { plainDiv with tagName := "A".toList, innerText := some "Sign up".toList,
                  textContent := some "Sign up".toList }

/-- A button labelled "OK". -/
def okButton : Node :=
  { plainDiv with tagName := "BUTTON".toList, innerText := some "OK".toList,
                  textContent := some "OK".toList }

/-- A document whose element 0 is the "Buy now" button, element 1 the
"Sign up" link and element 2 the "OK" button. -/
def sampleDom : Dom := fun i =>
  if i = 0 then buyButton else if i = 1 then signupLink else if i = 2 then okButton
  else plainDiv

/-- The controller as configured by default, with detection switched on. -/
def sampleController : Controller :=
  { detectionEnabled := true, sensitivity := some "balanced".toList,
    enabledCategories := [.purchase, .signup, .download, .important],
    lastTriggerTime := 0, lastElement := none }

def sampleEnv : Env :=
  { dom := sampleDom, now := 1700000000000, readFails := false, pendingContext := none,
    href := "https://shop.example/cart".toList, title := "Cart".toList,
    isoTime := "2023-11-14T22:13:20.000Z".toList }

def plainClick (target : NodeId) : ClickEvent :=
  { ctrlKey := false, metaKey := false, shiftKey := false, target := target }

/-- A chain of plain elements 0, 1, ..., 5, each the child of the next, below
element 6, whose class is "button-primary". -/
def chainDom : Dom := fun i =>
  if i < 6 then { plainDiv with parentElement := some (i + 1) }
  else { plainDiv with classAttr := some "button-primary".toList }

/-- The lower-cased value of an attribute, the empty string when the attribute
is absent. -/
def lowerAttr : Option JSString → JSString
  | none => []
  | some a => toLowerCase a

/-- The result `r` is the first category of the table, in the fixed order, that
has a keyword occurring in one of the four fields, and none exactly when no
category has one; in particular purchase wins over important. -/
def FirstMatch (table : KeywordTable) (text href name id : JSString) (r : Option Category) :
    Prop :=
  (∀ c, r = some c ↔
    CategoryHits table text href name id c ∧
      ∀ c2 : Category, c2.rank < c.rank → ¬ CategoryHits table text href name id c2) ∧
  (r = none ↔ ∀ c, ¬ CategoryHits table text href name id c) ∧
  (CategoryHits table text href name id Category.purchase →
    CategoryHits table text href name id Category.important → r = some Category.purchase)

/-- A button labelled "Confirm and buy". -/
def confirmBuyButton : Node :=
  { plainDiv with tagName := "BUTTON".toList, innerText := some "Confirm and buy".toList,
                  textContent := some "Confirm and buy".toList }

/-- The effect is a call of `saveDecision`. -/
def Effect.isSaveCall : Effect → Bool
  | .saveDecision _ _ => true
  | _ => false

/-- The effect is a programmatic click. -/
def Effect.isReplayClick : Effect → Bool
  | .elementClick _ => true
  | _ => false

/-- The action info of the sample click on the "Buy now" button. -/
def sampleInfo : ActionInfo := buildActionInfo sampleEnv "Buy now".toList Category.purchase

/-- The entry the save callback assembles from the action info, the payload of
the Decision Surface and the generated id. -/
def entryOf (info : ActionInfo) (data : SaveData) (id : JSString) : DecisionEntry :=
  { id := id, timestamp := info.timestamp, url := info.url, pageTitle := info.title,
    reason := data.reason, mood := data.mood, evidence := info.evidence }

/-- A random source that always yields 0. -/
def zeroRand : Nat → Fin 16 := fun _ => 0

def emptyStore : Store := { decisions := [], pendingContext := none }

def noFaults : StoreFaults := { getFails := false, setFails := false }

/-- The payload with reason "testing" and mood "Calm". -/
def sampleData : SaveData := { reason := "testing".toList, mood := "Calm".toList }

/-! ## The store calls of saveDecision, with their exceptions (storage.js, lines 14-36) -/

/-- The call `chrome.storage.local.get('decisions')`, which may throw. An
absent list reads as the empty list (`result.decisions || []`). -/
def storageGetDecisions (store : Store) (faults : StoreFaults) :
    Except Unit (List DecisionEntry) :=
  if faults.getFails then .error () else .ok store.decisions

/-- The call `chrome.storage.local.set({ decisions })`, which may throw; a
write that throws leaves the store as it was. -/
def storageSetDecisions (store : Store) (faults : StoreFaults)
    (decisions : List DecisionEntry) : Except Unit Store :=
  if faults.setFails then .error () else .ok { store with decisions := decisions }

/-- The function `getAllDecisions`, with its `try` and `catch`. -/
def getAllDecisionsTry (store : Store) (faults : StoreFaults) :
    Except Unit (List DecisionEntry) :=
  match storageGetDecisions store faults with
  | .ok decisions => .ok decisions
  | .error _ => .ok []

/-- The body of the `try` block of `saveDecision`. -/
def saveDecisionBody (store : Store) (faults : StoreFaults) (entry : DecisionEntry) :
    Except Unit (Bool × Store) := do
  let decisions ← getAllDecisionsTry store faults
  let store1 ← storageSetDecisions store faults (decisions ++ [entry])
  pure (true, store1)

/-- The function `saveDecision`, with its `try` and `catch`: an exception of the
body is caught and gives `false`. -/
def saveDecisionTry (store : Store) (faults : StoreFaults) (entry : DecisionEntry) :
    Except Unit (Bool × Store) :=
  match saveDecisionBody store faults entry with
  | .ok r => .ok r
  | .error _ => .ok (false, store)

/-! ## The Decision Surface (modal.js) -/

deriving instance DecidableEq for SaveData

/-- The five mood buttons of the surface. -/
inductive Mood where
  | calm
  | rushed
  | excited
  | anxious
  | unsure
  deriving DecidableEq

/-- The `data-mood` attribute of a mood button. -/
def Mood.label : Mood → JSString
  | .calm => "Calm".toList
  | .rushed => "Rushed".toList
  | .excited => "Excited".toList
  | .anxious => "Anxious".toList
  | .unsure => "Unsure".toList

def neutralLabel : JSString := "Neutral".toList

/-- The moods an entry may carry, by the data model of the specification. -/
def moodLabels : List JSString :=
  [Mood.calm.label, Mood.rushed.label, Mood.excited.label, Mood.anxious.label,
    Mood.unsure.label, neutralLabel]

structure KeyEvent where
  key : JSString
  metaKey : Bool
  ctrlKey : Bool
  shiftKey : Bool

/-- The state of a `DecisionModal` whose content is set up: the value of the
reasoning input, `this.selectedMood`, the mood buttons that carry the class
`selected`, whether the validation cue is shown, whether the container carries
the class `closing`, and the number of pending timers that remove the host. -/
structure Surface where
  reasonText : JSString
  selectedMood : Option Mood
  selectedButtons : List Mood
  invalidCue : Bool
  closing : Bool
  removalTimers : Nat
  deriving DecidableEq

/-- The surface as `inject` sets it up. -/
def Surface.initial : Surface :=
  { reasonText := [], selectedMood := none, selectedButtons := [], invalidCue := false,
    closing := false, removalTimers := 0 }

/-- What a handler of the surface does that is visible outside it. -/
inductive SurfaceOut where
  | saveClicked
  | skipClicked
  | preventDefault
  | closed
  | onSave (data : SaveData)
  | onSkip
  deriving DecidableEq

/-- The method `close` (lines 138-146): the container gets the class `closing`
and the removal of the host is scheduled 300 ms later. -/
def Surface.close (s : Surface) : Surface :=
  { s with closing := true, removalTimers := s.removalTimers + 1 }

/-- The click handler of the Save button (lines 106-115). -/
def saveHandler (s : Surface) : Surface × List SurfaceOut :=
  let reason := trim s.reasonText
  if reason.isEmpty then ({ s with invalidCue := true }, [])
  else
    (s.close,
      [ .closed,
        .onSave { reason := reason,
                  mood := match s.selectedMood with
                    | some m => m.label
                    | none => neutralLabel } ])

/-- The click handler of the Skip button (lines 117-120). -/
def skipHandler (s : Surface) : Surface × List SurfaceOut :=
  (s.close, [.closed, .onSkip])

/-- The click handler of a mood button (lines 98-104). -/
def moodHandler (s : Surface) (m : Mood) : Surface × List SurfaceOut :=
  ({ s with selectedButtons := [m], selectedMood := some m }, [])

/-- A click on the Save button, by the user or by `saveBtn.click()`. -/
def clickSave (s : Surface) : Surface × List SurfaceOut :=
  ((saveHandler s).1, .saveClicked :: (saveHandler s).2)

/-- A click on the Skip button, by the user or by `skipBtn.click()`. -/
def clickSkip (s : Surface) : Surface × List SurfaceOut :=
  ((skipHandler s).1, .skipClicked :: (skipHandler s).2)

def enterKey : JSString := "Enter".toList

def escapeKey : JSString := "Escape".toList

/-- The keydown handler of the reasoning input (lines 122-135). -/
def keydownHandler (s : Surface) (e : KeyEvent) : Surface × List SurfaceOut :=
  let r1 : Surface × List SurfaceOut :=
    if (e.metaKey || e.ctrlKey) && e.key = enterKey then clickSave s
    else if e.key = enterKey && !e.shiftKey then
      ((clickSave s).1, .preventDefault :: (clickSave s).2)
    else (s, [])
  if e.key = escapeKey then ((clickSkip r1.1).1, r1.2 ++ (clickSkip r1.1).2)
  else r1

/-- What the user can do on the surface. -/
inductive UserInput where
  | typeText (text : JSString)
  | moodClick (m : Mood)
  | saveClick
  | skipClick
  | keydown (e : KeyEvent)

def surfaceStep (s : Surface) : UserInput → Surface × List SurfaceOut
  | .typeText text => ({ s with reasonText := text }, [])
  | .moodClick m => moodHandler s m
  | .saveClick => clickSave s
  | .skipClick => clickSkip s
  | .keydown e => keydownHandler s e

/-- The inputs of a list, one after the other, and all they make visible. -/
def surfaceRun (s : Surface) : List UserInput → Surface × List SurfaceOut
  | [] => (s, [])
  | input :: rest =>
    ((surfaceRun (surfaceStep s input).1 rest).1,
      (surfaceStep s input).2 ++ (surfaceRun (surfaceStep s input).1 rest).2)

/-- The output is an invocation of one of the two callbacks. -/
def SurfaceOut.isCallback : SurfaceOut → Bool
  | .onSave _ => true
  | .onSkip => true
  | _ => false

/-! ## The mood selector of the popup (popup.js, lines 76-97) -/

/-- The module variable `selectedMood` of the popup and the mood cards that
carry the class `selected`. -/
structure PopupMood where
  selectedMood : Option Mood
  selectedCards : List Mood
  deriving DecidableEq

/-- The click handler of a mood card of the popup. -/
def popupMoodHandler (s : PopupMood) (m : Mood) : PopupMood :=
  if s.selectedCards.contains m then
    { selectedMood := none, selectedCards := s.selectedCards.filter (fun x => x != m) }
  else { selectedMood := some m, selectedCards := [m] }

/-- A store whose read works and whose write throws. -/
def writeFails : StoreFaults := { getFails := false, setFails := true }

/-- The surface after "x" was typed into the reasoning input. -/
def typedSurface : Surface := { Surface.initial with reasonText := "x".toList }

/-! ## The page: controller, listener, timers and surface hosts -/

/-- The argument of the `chrome.storage.onChanged` listener, as far as the
listener reads it: for each of the three keys, whether it changed and, if so,
the truthiness of the new `autoDetectionEnabled`, the new
`detectionSensitivity`, and the `enabledCategories` of the new
`detectionConfig` (`none` when that is absent or falsy, where the listener
keeps the categories it has). -/
structure Changes where
  autoDetectionEnabled : Option Bool
  detectionSensitivity : Option (Option JSString)
  detectionConfig : Option (Option (List Category))

/-- An element with id `dt-modal-host` in the document: the host of the
`DecisionModal` numbered `modalId`, with the `actionInfo` and the element its
callbacks are bound to, and the state of its surface. -/
structure Host where
  modalId : Nat
  info : ActionInfo
  element : NodeId
  surface : Surface

/-- The state of a page the content script runs in: the module variables,
whether `handleClick` is registered as capturing click listener of the
document, the number of pending 500 ms timers that register it again, the
surface hosts in the document, the store, and the number of `DecisionModal`
objects created so far. -/
structure Page where
  ctl : Controller
  listenerAttached : Bool
  reattachTimers : Nat
  hosts : List Host
  store : Store
  modalsCreated : Nat

/-- The function `initDetection` (lines 59-62). -/
def initDetection (p : Page) : Page := { p with listenerAttached := true }

/-- The function `cleanupDetection` (lines 64-66). -/
def cleanupDetection (p : Page) : Page := { p with listenerAttached := false }

/-- The callback of the settings read at load (lines 32-42). -/
def onSettingsLoaded (p : Page) (enabled : Bool) (sensitivity : Option JSString)
    (categories : Option (List Category)) : Page :=
  let ctl : Controller :=
    { p.ctl with
      detectionEnabled := enabled,
      sensitivity := jsOr sensitivity (some "balanced".toList),
      enabledCategories := match categories with
        | some cats => cats
        | none => p.ctl.enabledCategories }
  if enabled then initDetection { p with ctl := ctl } else { p with ctl := ctl }

/-- The listener of `chrome.storage.onChanged` (lines 45-57). -/
def onStorageChanged (p : Page) (changes : Changes) : Page :=
  let p1 : Page := match changes.autoDetectionEnabled with
    | some newValue =>
      if newValue then initDetection { p with ctl := { p.ctl with detectionEnabled := newValue } }
      else cleanupDetection { p with ctl := { p.ctl with detectionEnabled := newValue } }
    | none => p
  let p2 : Page := match changes.detectionSensitivity with
    | some newValue => { p1 with ctl := { p1.ctl with sensitivity := newValue } }
    | none => p1
  match changes.detectionConfig with
  | some (some cats) => { p2 with ctl := { p2.ctl with enabledCategories := cats } }
  | _ => p2

/-- The construction of a `DecisionModal` and its method `inject` (modal.js,
lines 14-96): nothing happens when the document holds an element with id
`dt-modal-host`; otherwise a host is appended and the surface is set up (the
style sheet is taken to load). -/
def inject (p : Page) (info : ActionInfo) (element : NodeId) : Page :=
  if p.hosts.isEmpty then
    { p with
      hosts := p.hosts ++
        [{ modalId := p.modalsCreated, info := info, element := element,
           surface := Surface.initial }],
      modalsCreated := p.modalsCreated + 1 }
  else { p with modalsCreated := p.modalsCreated + 1 }

/-- What an effect of `handleClick` or of a callback does to the page, the
dispatch of a programmatic click apart. -/
def applyBasic (p : Page) : Effect → Page
  | .modalInject info element => inject p info element
  | .removeClickListener => { p with listenerAttached := false }
  | .setTimeoutAddClickListener _ => { p with reattachTimers := p.reattachTimers + 1 }
  | _ => p

/-- A click event that reaches the document: `handleClick` runs when it is
registered, reading pendingContext from the store of the page. -/
def dispatchClick (p : Page) (env : Env) (event : ClickEvent) : Page × List Effect :=
  if p.listenerAttached then
    let r := handleClick p.ctl { env with pendingContext := p.store.pendingContext } event
    (r.2.foldl applyBasic { p with ctl := r.1 }, r.2)
  else (p, [])

/-- What an effect of a callback does to the page: `element.click()`
dispatches a click on the element at once. -/
def applyEffect (env : Env) (acc : Page × List Effect) (eff : Effect) : Page × List Effect :=
  match eff with
  | .elementClick e =>
    ((dispatchClick acc.1 env (plainClick e)).1,
      acc.2 ++ eff :: (dispatchClick acc.1 env (plainClick e)).2)
  | _ => (applyBasic acc.1 eff, acc.2 ++ [eff])

/-- The callback a surface output invokes, for the host it comes from. -/
def runCallback (p : Page) (h : Host) (env : Env) (rand : Nat → Fin 16) (faults : StoreFaults)
    (out : SurfaceOut) : Page × List Effect :=
  match out with
  | .onSave data =>
    (onSave h.info h.element rand p.store faults data).2.foldl (applyEffect env)
      ({ p with store := (onSave h.info h.element rand p.store faults data).1 }, [])
  | .onSkip =>
    (onSkip h.element p.store).2.foldl (applyEffect env)
      ({ p with store := (onSkip h.element p.store).1 }, [])
  | _ => (p, [])

/-- An input of the user on the surface of the host numbered `modalId`, if
that host is in the document. -/
def userInput (p : Page) (modalId : Nat) (input : UserInput) (env : Env)
    (rand : Nat → Fin 16) (faults : StoreFaults) : Page × List Effect :=
  match p.hosts.find? (fun h => h.modalId = modalId) with
  | none => (p, [])
  | some h =>
    (surfaceStep h.surface input).2.foldl
      (fun acc out =>
        ((runCallback acc.1 h env rand faults out).1,
          acc.2 ++ (runCallback acc.1 h env rand faults out).2))
      ({ p with hosts := p.hosts.map (fun x =>
          if x.modalId = modalId then { x with surface := (surfaceStep h.surface input).1 }
          else x) }, [])

/-- What can happen on the page. -/
inductive PageEvent where
  | settingsLoaded (enabled : Bool) (sensitivity : Option JSString)
      (categories : Option (List Category))
  | storageChanged (changes : Changes)
  | click (env : Env) (event : ClickEvent)
  | userInput (modalId : Nat) (input : UserInput) (env : Env) (rand : Nat → Fin 16)
      (faults : StoreFaults)
  | reattachTimer
  | removalTimer (modalId : Nat)

def step (p : Page) : PageEvent → Page × List Effect
  | .settingsLoaded enabled sensitivity categories =>
    (onSettingsLoaded p enabled sensitivity categories, [])
  | .storageChanged changes => (onStorageChanged p changes, [])
  | .click env event => dispatchClick p env event
  | .userInput modalId input env rand faults => userInput p modalId input env rand faults
  | .reattachTimer =>
    if p.reattachTimers = 0 then (p, [])
    else ({ p with listenerAttached := true, reattachTimers := p.reattachTimers - 1 }, [])
  | .removalTimer modalId =>
    ({ p with hosts := p.hosts.filter (fun h =>
        !(decide (h.modalId = modalId) && decide (0 < h.surface.removalTimers))) }, [])

/-- The events of a list, one after the other, and all their effects. -/
def run (p : Page) : List PageEvent → Page × List Effect
  | [] => (p, [])
  | ev :: rest => ((run (step p ev).1 rest).1, (step p ev).2 ++ (run (step p ev).1 rest).2)

/-- The page when the content script starts. -/
def initialPage (store : Store) : Page :=
  { ctl := { detectionEnabled := false, sensitivity := some "balanced".toList,
             enabledCategories := [.purchase, .signup, .download, .important],
             lastTriggerTime := 0, lastElement := none },
    listenerAttached := false, reattachTimers := 0, hosts := [], store := store,
    modalsCreated := 0 }

/-- A click was intercepted and its Decision Surface is not resolved yet. -/
def Page.pending (p : Page) : Bool := p.hosts.any (fun h => !h.surface.closing)

/-- The events the amended guard-window property admits between a replay and
the firing of a reattach timer: no reattach timer fires, and neither the
settings read nor a change notification switches detection on. -/
def PageEvent.inWindow : PageEvent → Prop
  | .settingsLoaded enabled _ _ => enabled = false
  | .storageChanged changes => changes.autoDetectionEnabled ≠ some true
  | .reattachTimer => False
  | _ => True

/-- The effect is a suppression or the opening of a Decision Surface. -/
def Effect.isInterception : Effect → Bool
  | .preventDefault => true
  | .stopPropagation => true
  | .modalInject _ _ => true
  | _ => false

/-- The page after the settings were loaded with detection on and the "Buy
now" button of the sample document was clicked. -/
def pendingPage : Page :=
  (run (initialPage emptyStore)
    [ .settingsLoaded true (some "balanced".toList) none,
      .click sampleEnv (plainClick 0) ]).1

/-- The change notification that switches detection on, and the one that
switches it off. -/
def enableChange : Changes :=
  { autoDetectionEnabled := some true, detectionSensitivity := none, detectionConfig := none }

def disableChange : Changes :=
  { autoDetectionEnabled := some false, detectionSensitivity := none, detectionConfig := none }

/-- The Enter key without modifiers. -/
def plainEnter : KeyEvent :=
  { key := enterKey, metaKey := false, ctrlKey := false, shiftKey := false }

/-- A click in the sample document 20.2 s after the first one. -/
def windowEnv : Env := { sampleEnv with now := 1700000020200 }

/-- On the pending page the user types "x" and presses Enter twice before the
host of the surface is removed. -/
def doubleEnter : List PageEvent :=
  [ .userInput 0 (.typeText "x".toList) sampleEnv zeroRand noFaults,
    .userInput 0 (.keydown plainEnter) sampleEnv zeroRand noFaults,
    .userInput 0 (.keydown plainEnter) sampleEnv zeroRand noFaults ]

/-- On the pending page the user types "x" and presses Enter once. -/
def singleEnter : List PageEvent :=
  [ .userInput 0 (.typeText "x".toList) sampleEnv zeroRand noFaults,
    .userInput 0 (.keydown plainEnter) sampleEnv zeroRand noFaults ]

/-- The host of the sample page, with "x" typed into its surface. -/
def sampleHost : Host :=
  { modalId := 0, info := sampleInfo, element := 0,
    surface := typedSurface }

/-- The pending page after one commit (and so one replay) followed, before
any timer fires, by the notification that switches detection on. -/
def pageAfterEnable : Page :=
  (run pendingPage (singleEnter ++ [.storageChanged enableChange])).1

/-- The pending page after two commits by a double Enter (and so two
replays), the removal of the host and the firing of the first of the two
reattach timers. -/
def pageAfterFirstTimer : Page :=
  (run pendingPage (doubleEnter ++ [.removalTimer 0, .reattachTimer])).1

/-- Events inside a guard window: detection is switched off, the "Sign up"
link is clicked, the host of the resolved surface is removed. -/
def quietWindow : List PageEvent :=
  [ .storageChanged disableChange, .click windowEnv (plainClick 1), .removalTimer 0 ]

/-- The lower-case hexadecimal digits. -/
def hexChars : List Char := "0123456789abcdef".toList

/-- The template of `generateId`. -/
def uuidTemplate : List Char := "xxxxxxxx-xxxx-4xxx-yxxx-xxxxxxxxxxxx".toList

/-- A store whose read throws and whose write works. -/
def readFails : StoreFaults := { getFails := true, setFails := false }

/-- An entry stored earlier, and the entry of the sample commit. -/
def oldEntry : DecisionEntry :=
  entryOf (sampleInfo)
    { reason := "earlier".toList, mood := neutralLabel } "old-id".toList

def newEntry : DecisionEntry :=
  entryOf (sampleInfo) sampleData (generateId zeroRand)

/-- A store that holds one decision. -/
def oneEntryStore : Store := { decisions := [oldEntry], pendingContext := none }

/-- The throttle state at load: `lastTriggerTime = 0`, `lastElement = null`. -/
def initialThrottle (st : Controller) : Controller :=
  { st with lastTriggerTime := 0, lastElement := none }

/-- The calls of a sequence of `shouldThrottle` calls, each given by its element
and its clock reading, that return false, in order. -/
def acceptedCalls (st : Controller) : List (NodeId × Int) → List (NodeId × Int)
  | [] => []
  | (el, now) :: rest =>
    if (shouldThrottle st el now).1 then acceptedCalls (shouldThrottle st el now).2 rest
    else (el, now) :: acceptedCalls (shouldThrottle st el now).2 rest

/-- The values of `lastTriggerTime` after each call of the sequence. -/
def triggerTimes (st : Controller) : List (NodeId × Int) → List Int
  | [] => []
  | (el, now) :: rest =>
    (shouldThrottle st el now).2.lastTriggerTime ::
      triggerTimes (shouldThrottle st el now).2 rest

/-- The page after the settings were loaded with detection on. -/
def armedPage : Page :=
  (run (initialPage emptyStore) [.settingsLoaded true (some "balanced".toList) none]).1

/-- Detection is switched on, the "Buy now" button is clicked and the surface
is committed; then detection is switched off and the timer of the replay
fires, attaching the listener again. -/
def disabledReattached : List PageEvent :=
  [ .settingsLoaded true (some "balanced".toList) none, .click sampleEnv (plainClick 0) ] ++
    singleEnter ++ [ .storageChanged disableChange, .reattachTimer ]

/-- An SVG icon with class "button-primary", without text, role or parent. -/
def svgIcon : Node :=
  { plainDiv with tagName := "svg".toList, classAttr := some "button-primary".toList,
                  isSVGElement := true, innerText := none }

/-- A document whose elements are SVG icons of that kind. -/
def svgDom : Dom := fun _ => svgIcon

/-- A list item `<li role="button" value="3"></li>`: no text, no label, no
title, and the number 3 as its `value`. -/
def numberItem : Node :=
  { plainDiv with tagName := "LI".toList, role := some "button".toList, value := .num true }

/-- The sample surroundings with a read of the store that rejects. -/
def rejectingEnv : Env := { sampleEnv with readFails := true }

/-- The value as a text: the string itself, when the value is a string. -/
def JSValue.asText : JSValue → Option JSString
  | .str s => some s
  | _ => none

/-- On the pending page the user types "testing", picks Calm and clicks Save
once. -/
def commitOnce : List PageEvent :=
  [ .userInput 0 (.typeText "testing".toList) sampleEnv zeroRand noFaults,
    .userInput 0 (.moodClick Mood.calm) sampleEnv zeroRand noFaults,
    .userInput 0 .saveClick sampleEnv zeroRand noFaults ]

/-- The same with a second click on Save before the host is removed. -/
def commitTwice : List PageEvent :=
  commitOnce ++ [ .userInput 0 .saveClick sampleEnv zeroRand noFaults ]

/-- On the pending page the user clicks Skip once. -/
def skipOnce : List PageEvent :=
  [ .userInput 0 .skipClick sampleEnv zeroRand noFaults ]

/-- The same with a second click on Skip before the host is removed. -/
def skipTwice : List PageEvent :=
  skipOnce ++ [ .userInput 0 .skipClick sampleEnv zeroRand noFaults ]

/-- On the pending page the user commits and then clicks Skip before the host
is removed. -/
def commitThenSkip : List PageEvent :=
  commitOnce ++ [ .userInput 0 .skipClick sampleEnv zeroRand noFaults ]

/-! ## Theorems -/

/-- C3: shouldThrottle returns true and leaves the state as it is when the
element is the last triggering element and fewer than 10000 ms have passed, or
else when fewer than 2500 ms have passed; otherwise it returns false and
records the element and the clock reading. After E is accepted at time t, E at
t+5000 and another element at t+1000 are throttled and another element at
t+3000 is allowed. -/
theorem shouldThrottle_rules (st : Controller) (el : NodeId) (now : Int) :
    ((st.lastElement = some el ∧ now - st.lastTriggerTime < 10000) →
      shouldThrottle st el now = (true, st)) ∧
    (¬ (st.lastElement = some el ∧ now - st.lastTriggerTime < 10000) →
      now - st.lastTriggerTime < 2500 → shouldThrottle st el now = (true, st)) ∧
    (¬ (st.lastElement = some el ∧ now - st.lastTriggerTime < 10000) →
      ¬ now - st.lastTriggerTime < 2500 →
      shouldThrottle st el now =
        (false, { st with lastTriggerTime := now, lastElement := some el })) ∧
    ((shouldThrottle st el now).1 = true → (shouldThrottle st el now).2 = st) ∧
    (∀ e2 : NodeId, (shouldThrottle st el now).1 = false → e2 ≠ el →
      (shouldThrottle (shouldThrottle st el now).2 el (now + 5000)).1 = true ∧
      (shouldThrottle (shouldThrottle st el now).2 e2 (now + 1000)).1 = true ∧
      (shouldThrottle (shouldThrottle st el now).2 e2 (now + 3000)).1 = false) := by
  refine ⟨?_, ?_, ?_, ?_, ?_⟩
  · intro h
    simp [shouldThrottle, h]
  · intro h1 h2
    simp only [shouldThrottle, if_neg h1, if_pos h2]
  · intro h1 h2
    simp only [shouldThrottle, if_neg h1, if_neg h2]
  · unfold shouldThrottle
    split_ifs <;> simp
  · intro e2 hacc hne
    have hst : shouldThrottle st el now =
        (false, { st with lastTriggerTime := now, lastElement := some el }) := by
      unfold shouldThrottle at hacc ⊢
      split_ifs at hacc ⊢ with h1 h2
      rfl
    have hne2 : ¬ (some el = some e2) := fun h => hne (Option.some.inj h).symm
    rw [hst]
    simp [shouldThrottle, hne2]

/-- A throttled call leaves the state as it was. -/
lemma shouldThrottle_unchanged (st : Controller) (el : NodeId) (now : Int)
    (h : (shouldThrottle st el now).1 = true) : (shouldThrottle st el now).2 = st := by
  unfold shouldThrottle at h ⊢
  split_ifs at h ⊢ <;> simp_all

/-- What `handleClick` returns when the click is accepted. -/
lemma handleClick_of_accepted (st : Controller) (env : Env) (event : ClickEvent)
    (h : Accepted st env event) :
    ∃ el cat, findRelevantElement env.dom event.target = some el ∧
      detectActionType st.sensitivity (env.dom el) = some (some cat) ∧
      handleClick st env event =
        ((shouldThrottle st el env.now).2, intercept env el cat) := by
  obtain ⟨hen, hc, hm, hs, el, hel, cat, hcat, hmem, hthr⟩ := h
  refine ⟨el, cat, hel, hcat, ?_⟩
  have hcontains : st.enabledCategories.contains cat = true := by
    simpa using hmem
  unfold handleClick
  simp only [hen, hc, hm, hs, hel, hcat, hcontains]
  rcases hsh : shouldThrottle st el env.now with ⟨b, st1⟩
  rw [hsh] at hthr
  simp only at hthr
  subst hthr
  simp

/-- What `handleClick` returns when the click is not accepted: the state it
was called in and no effect. -/
lemma handleClick_of_not_accepted (st : Controller) (env : Env) (event : ClickEvent)
    (h : ¬ Accepted st env event) : handleClick st env event = (st, []) := by
  unfold handleClick
  by_cases hen : st.detectionEnabled = true
  swap
  · simp [hen]
  by_cases hmod : (event.ctrlKey || event.metaKey || event.shiftKey) = true
  · simp [hen, hmod]
  simp only [hen, hmod]
  simp only [Bool.or_eq_true, not_or, Bool.not_eq_true] at hmod
  obtain ⟨⟨hc, hm⟩, hs⟩ := hmod
  cases hel : findRelevantElement env.dom event.target with
  | none => simp
  | some el =>
    rcases hcat : detectActionType st.sensitivity (env.dom el) with _ | _ | cat
    · simp [hcat]
    · simp [hcat]
    · by_cases hmem : st.enabledCategories.contains cat = true
      swap
      · have hmem2 : cat ∉ st.enabledCategories := by simpa using hmem
        simp [hcat, hmem2]
      have hmem2 : cat ∈ st.enabledCategories := by simpa using hmem
      cases hb : (shouldThrottle st el env.now).1 with
      | false =>
        exact absurd ⟨hen, hc, hm, hs, el, hel, cat, hcat, hmem2, hb⟩ h
      | true =>
        have h2 : (shouldThrottle st el env.now).2 = st :=
          shouldThrottle_unchanged st el env.now hb
        have h3 : shouldThrottle st el env.now = (true, st) := Prod.ext hb h2
        simp [hcat, hmem2, h3]

/-- C1: handleClick calls preventDefault and stopPropagation exactly when the
click is accepted (detection enabled, no modifier key, an element resolved, a
category detected, the category enabled, not throttled); in every other case it
performs no effect at all. With enabledCategories = {purchase} a click on an
element classified as signup performs no effect, and there is such a click. -/
theorem handleClick_intercepts_iff (st : Controller) (env : Env) (event : ClickEvent) :
    ((Effect.preventDefault ∈ (handleClick st env event).2 ∧
        Effect.stopPropagation ∈ (handleClick st env event).2) ↔ Accepted st env event) ∧
    (¬ Accepted st env event → handleClick st env event = (st, [])) ∧
    (st.enabledCategories = [Category.purchase] →
      ∀ el, findRelevantElement env.dom event.target = some el →
        detectActionType st.sensitivity (env.dom el) = some (some Category.signup) →
        handleClick st env event = (st, [])) ∧
    (detectActionType sampleController.sensitivity (sampleDom 1) =
        some (some Category.signup) ∧
      handleClick { sampleController with enabledCategories := [Category.purchase] }
        sampleEnv (plainClick 1) =
        ({ sampleController with enabledCategories := [Category.purchase] }, [])) := by
  refine ⟨⟨?_, ?_⟩, handleClick_of_not_accepted st env event, ?_, ?_, ?_⟩
  · intro hmem
    by_contra hna
    rw [handleClick_of_not_accepted st env event hna] at hmem
    simp at hmem
  · intro hacc
    obtain ⟨el, cat, -, -, heq⟩ := handleClick_of_accepted st env event hacc
    rw [heq]
    simp [intercept]
  · intro hcats el hel hcat
    apply handleClick_of_not_accepted
    rintro ⟨-, -, -, -, el2, hel2, cat, hcat2, hmem, -⟩
    rw [hel] at hel2
    cases hel2
    rw [hcat] at hcat2
    cases hcat2
    rw [hcats] at hmem
    simp at hmem
  · decide
  · decide

/-- The sample click on the "Buy now" button is accepted. -/
lemma sample_accepted : Accepted sampleController sampleEnv (plainClick 0) :=
  ⟨rfl, rfl, rfl, rfl, 0, by decide, Category.purchase, by decide, by decide, by decide⟩

/-- A classification that returns means that the text extraction returned. -/
lemma getElementText_of_detect (sensitivity : Option JSString) (element : Node)
    (r : Option Category) (h : detectActionType sensitivity element = some r) :
    ∃ extracted, getElementText element = some extracted := by
  unfold detectActionType at h
  cases hg : getElementText element with
  | none => simp [hg] at h
  | some extracted => exact ⟨extracted, rfl⟩

/-- C2: in the effects of an accepted click, preventDefault and stopPropagation
occur in the part before the first suspension (the read of pendingContext);
that part holds no suspension and no opening of the Decision Surface, which is
opened, for the resolved element, after the read, when the read succeeds;
when the read rejects nothing follows it. -/
theorem handleClick_suppresses_before_read (st : Controller) (env : Env) (event : ClickEvent)
    (h : Accepted st env event) :
    ∃ pre post el,
      (handleClick st env event).2 = pre ++ Effect.storageGet [pendingContextKey] :: post ∧
      Effect.preventDefault ∈ pre ∧ Effect.stopPropagation ∈ pre ∧
      (∀ e ∈ pre, e.isSuspension = false) ∧
      (∀ i e, Effect.modalInject i e ∉ pre) ∧
      findRelevantElement env.dom event.target = some el ∧
      (env.readFails = false → ∃ info, Effect.modalInject info el ∈ post) ∧
      (env.readFails = true → post = []) := by
  obtain ⟨el, cat, hel, hcat, heq⟩ := handleClick_of_accepted st env event h
  obtain ⟨extracted, hext⟩ := getElementText_of_detect _ _ _ hcat
  refine ⟨[Effect.preventDefault, Effect.stopPropagation],
    (if env.readFails then []
     else [Effect.consoleLog, Effect.modalInject (buildActionInfo env extracted cat) el]),
    el, ?_, ?_, ?_, ?_, ?_, hel, ?_, ?_⟩
  · rw [heq]
    simp [intercept, hext]
  · simp
  · simp
  · intro e he
    simp at he
    rcases he with rfl | rfl <;> rfl
  · intro i e he
    simp at he
  · intro hr
    exact ⟨buildActionInfo env extracted cat, by simp [hr]⟩
  · intro hr
    simp [hr]

/-- C2 at the sample click on the "Buy now" button, whose read succeeds. -/
theorem handleClick_suppresses_before_read_witness :
    Accepted sampleController sampleEnv (plainClick 0) ∧
    sampleEnv.readFails = false ∧
    ∃ pre post el,
      (handleClick sampleController sampleEnv (plainClick 0)).2 =
        pre ++ Effect.storageGet [pendingContextKey] :: post ∧
      Effect.preventDefault ∈ pre ∧ Effect.stopPropagation ∈ pre ∧
      (∀ e ∈ pre, e.isSuspension = false) ∧
      (∀ i e, Effect.modalInject i e ∉ pre) ∧
      findRelevantElement sampleEnv.dom (plainClick 0).target = some el ∧
      (sampleEnv.readFails = false → ∃ info, Effect.modalInject info el ∈ post) ∧
      (sampleEnv.readFails = true → post = []) :=
  ⟨sample_accepted, rfl,
    handleClick_suppresses_before_read sampleController sampleEnv (plainClick 0) sample_accepted⟩

/-! ### The resolver -/

/-- The test `includes` decides the contiguous-run relation of lists. -/
lemma includes_iff (s kw : JSString) : includes s kw = true ↔ kw <:+: s := by
  unfold includes
  rw [List.any_eq_true, List.infix_iff_prefix_suffix]
  constructor
  · rintro ⟨t, ht, hp⟩
    exact ⟨t, by simpa using hp, (List.mem_tails _ _).mp ht⟩
  · rintro ⟨t, hp, ht⟩
    exact ⟨t, (List.mem_tails _ _).mpr ht, by simpa using hp⟩

/-- The condition of the loop body is the qualification of the specification. -/
lemma isActionable_iff (n : Node) : isActionable n = true ↔ Qualifies n := by
  unfold isActionable Qualifies
  cases hr : n.role <;> cases ht : n.type <;> cases hc : n.className <;>
    simp <;> tauto

lemma findLoop_none_start (dom : Dom) (n : Nat) : findLoop dom n none = none := by
  cases n <;> rfl

/-- The loop returns `x` exactly when `x` is the nearest actionable node among
the first `n` nodes of the ancestor chain. -/
lemma findLoop_eq_some (dom : Dom) (n : Nat) (c x : NodeId) :
    findLoop dom n (some c) = some x ↔
      ∃ d, d < n ∧ ancestor dom d c = some x ∧ isActionable (dom x) = true ∧
        ∀ d2, d2 < d → ∀ y, ancestor dom d2 c = some y → isActionable (dom y) = false := by
  induction n generalizing c with
  | zero => simp [findLoop]
  | succ n ih =>
    by_cases hq : isActionable (dom c) = true
    · simp only [findLoop, hq, if_true]
      constructor
      · intro h
        cases h
        exact ⟨0, Nat.succ_pos n, rfl, hq, fun d2 h2 => absurd h2 (Nat.not_lt_zero d2)⟩
      · rintro ⟨d, -, hd, -, hmin⟩
        cases d with
        | zero => simpa [ancestor] using hd
        | succ d =>
          have := hmin 0 (Nat.succ_pos d) c rfl
          rw [hq] at this
          cases this
    · have hq2 : isActionable (dom c) = false := by simpa using hq
      simp only [findLoop, hq2]
      cases hp : (dom c).parentElement with
      | none =>
        simp only [findLoop_none_start]
        constructor
        · intro h
          cases h
        · rintro ⟨d, -, hd, hx, -⟩
          cases d with
          | zero =>
            simp only [ancestor, Option.some.injEq] at hd
            subst hd
            rw [hq2] at hx
            cases hx
          | succ d => simp [ancestor, hp] at hd
      | some p =>
        simp only [Bool.false_eq_true, if_false]
        rw [ih p]
        constructor
        · rintro ⟨d, hdn, hd, hx, hmin⟩
          refine ⟨d + 1, Nat.succ_lt_succ hdn, by simpa [ancestor, hp] using hd, hx, ?_⟩
          intro d2 h2 y hy
          cases d2 with
          | zero =>
            simp only [ancestor, Option.some.injEq] at hy
            subst hy
            exact hq2
          | succ d2 =>
            exact hmin d2 (Nat.lt_of_succ_lt_succ h2) y (by simpa [ancestor, hp] using hy)
        · rintro ⟨d, hdn, hd, hx, hmin⟩
          cases d with
          | zero =>
            simp only [ancestor, Option.some.injEq] at hd
            subst hd
            rw [hq2] at hx
            cases hx
          | succ d =>
            refine ⟨d, Nat.lt_of_succ_lt_succ hdn, by simpa [ancestor, hp] using hd, hx, ?_⟩
            intro d2 h2 y hy
            exact hmin (d2 + 1) (Nat.succ_lt_succ h2) y (by simpa [ancestor, hp] using hy)

/-- The loop returns nothing exactly when none of the first `n` nodes of the
ancestor chain is actionable. -/
lemma findLoop_eq_none (dom : Dom) (n : Nat) (c : NodeId) :
    findLoop dom n (some c) = none ↔
      ∀ d, d < n → ∀ y, ancestor dom d c = some y → isActionable (dom y) = false := by
  induction n generalizing c with
  | zero => simp [findLoop]
  | succ n ih =>
    by_cases hq : isActionable (dom c) = true
    · simp only [findLoop, hq, if_true]
      constructor
      · intro h
        cases h
      · intro h
        have := h 0 (Nat.succ_pos n) c rfl
        rw [hq] at this
        cases this
    · have hq2 : isActionable (dom c) = false := by simpa using hq
      simp only [findLoop, hq2, Bool.false_eq_true, if_false]
      cases hp : (dom c).parentElement with
      | none =>
        simp only [findLoop_none_start, true_iff]
        intro d _ y hy
        cases d with
        | zero =>
          simp only [ancestor, Option.some.injEq] at hy
          subst hy
          exact hq2
        | succ d => simp [ancestor, hp] at hy
      | some p =>
        rw [ih p]
        constructor
        · intro h d hd y hy
          cases d with
          | zero =>
            simp only [ancestor, Option.some.injEq] at hy
            subst hy
            exact hq2
          | succ d => exact h d (Nat.lt_of_succ_lt_succ hd) y (by simpa [ancestor, hp] using hy)
        · intro h d hd y hy
          exact h (d + 1) (Nat.succ_lt_succ hd) y (by simpa [ancestor, hp] using hy)

/-- C5: findRelevantElement returns the first qualifying node among the at
most 6 nodes of the ancestor chain that starts at the target itself, and none
exactly when none of these nodes qualifies. -/
theorem findRelevantElement_nearest (dom : Dom) (target : NodeId) :
    (∀ x, findRelevantElement dom target = some x ↔
      ∃ d, d < 6 ∧ ancestor dom d target = some x ∧ Qualifies (dom x) ∧
        ∀ d2, d2 < d → ∀ y, ancestor dom d2 target = some y → ¬ Qualifies (dom y)) ∧
    (findRelevantElement dom target = none ↔
      ∀ d, d < 6 → ∀ y, ancestor dom d target = some y → ¬ Qualifies (dom y)) := by
  have hno : ∀ y, isActionable (dom y) = false ↔ ¬ Qualifies (dom y) := by
    intro y
    rw [← isActionable_iff]
    simp
  constructor
  · intro x
    unfold findRelevantElement
    rw [findLoop_eq_some]
    simp only [hno, isActionable_iff]
  · unfold findRelevantElement
    rw [findLoop_eq_none]
    simp only [hno]

/-- A class string containing "button-primary" has a lower-cased form
containing "button". -/
lemma includes_button_of_button_primary (c : JSString)
    (h : includes c "button-primary".toList = true) :
    includes (toLowerCase c) "button".toList = true := by
  rw [includes_iff] at h ⊢
  have h1 : toLowerCase "button-primary".toList <:+: toLowerCase c := by
    obtain ⟨a, b, hab⟩ := h
    refine ⟨toLowerCase a, toLowerCase b, ?_⟩
    rw [← hab]
    simp [toLowerCase]
  have h2 : "button".toList <:+: toLowerCase "button-primary".toList := by
    rw [← includes_iff]
    decide
  exact h2.trans h1

/-- In the sample chain, the node reached from `t` by `d` parent steps is
`t + d`, as long as that is at most 6. -/
lemma ancestor_chainDom (d t : Nat) (h : t + d ≤ 6) : ancestor chainDom d t = some (t + d) := by
  induction d generalizing t with
  | zero => rfl
  | succ d ih =>
    have ht : t < 6 := by omega
    have hp : (chainDom t).parentElement = some (t + 1) := by simp [chainDom, ht]
    simp only [ancestor, hp]
    rw [ih (t + 1) (by omega)]
    congr 1
    omega

/-- The plain elements of the sample chain do not qualify. -/
lemma chainDom_plain (y : Nat) (h : y < 6) : ¬ Qualifies (chainDom y) := by
  rw [← isActionable_iff]
  interval_cases y <;> decide

/-- C6, as stated, fails in two ways. At depth 6: in the sample chain the
element with class "button-primary" is 6 parent steps above the target, it has
no qualifying tag or role, no nearer node qualifies, and findRelevantElement
returns none. On an SVG element: the icon with class "button-primary" is the
target itself, it has no qualifying tag or role, and findRelevantElement
returns none, its className not being a string. -/
theorem findRelevantElement_misses_depth_six :
    ((chainDom 6).classAttr = some "button-primary".toList ∧
      includes "button-primary".toList "button-primary".toList = true ∧
      toLowerCase (chainDom 6).tagName ≠ "a".toList ∧
      toLowerCase (chainDom 6).tagName ≠ "button".toList ∧
      toLowerCase (chainDom 6).tagName ≠ "input".toList ∧
      (chainDom 6).role = none ∧
      ancestor chainDom 6 0 = some 6 ∧
      (∀ d2, d2 < 6 → ∀ y, ancestor chainDom d2 0 = some y → ¬ Qualifies (chainDom y)) ∧
      6 ≤ 6 ∧
      findRelevantElement chainDom 0 ≠ some 6) ∧
    ((svgDom 0).classAttr = some "button-primary".toList ∧
      toLowerCase (svgDom 0).tagName ≠ "a".toList ∧
      toLowerCase (svgDom 0).tagName ≠ "button".toList ∧
      toLowerCase (svgDom 0).tagName ≠ "input".toList ∧
      (svgDom 0).role = none ∧
      ancestor svgDom 0 0 = some 0 ∧
      0 ≤ 6 ∧
      findRelevantElement svgDom 0 = none) := by
  refine ⟨⟨by decide, by decide, by decide, by decide, by decide, by decide, by decide, ?_,
    le_refl 6, by decide⟩,
    by decide, by decide, by decide, by decide, by decide, by decide, by decide, by decide⟩
  intro d2 h2 y hy
  rw [ancestor_chainDom d2 0 (by omega)] at hy
  cases hy
  exact chainDom_plain _ (by omega)

/-- C6, amended: an element whose className is a string that contains
"button-primary" (which an SVG element's is not), reached
from the target by d parent steps with no qualifying node nearer to the target,
is returned by findRelevantElement when d < 6, and findRelevantElement returns
none when d ≥ 6. -/
theorem findRelevantElement_class_heuristic (dom : Dom) (target x d : Nat) (c : JSString)
    (hc : (dom x).className = some c)
    (hbp : includes c "button-primary".toList = true)
    (hanc : ancestor dom d target = some x)
    (hnear : ∀ d2, d2 < d → ∀ y, ancestor dom d2 target = some y → ¬ Qualifies (dom y)) :
    (d < 6 → findRelevantElement dom target = some x) ∧
    (6 ≤ d → findRelevantElement dom target = none) := by
  have hq : Qualifies (dom x) := by
    right; right; right; right
    exact ⟨c, hc, Or.inr (includes_button_of_button_primary c hbp)⟩
  have hno : ∀ y, ¬ Qualifies (dom y) → isActionable (dom y) = false := by
    intro y hy
    rw [← isActionable_iff] at hy
    simpa using hy
  unfold findRelevantElement
  constructor
  · intro hd
    exact (findLoop_eq_some dom 6 target x).mpr
      ⟨d, hd, hanc, (isActionable_iff _).mpr hq, fun d2 h2 y hy => hno y (hnear d2 h2 y hy)⟩
  · intro hd
    exact (findLoop_eq_none dom 6 target).mpr
      (fun d2 h2 y hy => hno y (hnear d2 (lt_of_lt_of_le h2 hd) y hy))

/-- C6, amended, in the sample chain: from target 1 the element with class
"button-primary" is 5 parent steps away and is returned. -/
theorem findRelevantElement_class_heuristic_witness :
    (chainDom 6).className = some "button-primary".toList ∧
    includes "button-primary".toList "button-primary".toList = true ∧
    ancestor chainDom 5 1 = some 6 ∧
    (∀ d2, d2 < 5 → ∀ y, ancestor chainDom d2 1 = some y → ¬ Qualifies (chainDom y)) ∧
    (5 < 6 → findRelevantElement chainDom 1 = some 6) ∧
    (6 ≤ 5 → findRelevantElement chainDom 1 = none) :=
  have hnear : ∀ d2, d2 < 5 → ∀ y, ancestor chainDom d2 1 = some y → ¬ Qualifies (chainDom y) := by
    intro d2 h2 y hy
    rw [ancestor_chainDom d2 1 (by omega)] at hy
    cases hy
    exact chainDom_plain _ (by omega)
  ⟨by decide, by decide, by decide, hnear,
    findRelevantElement_class_heuristic chainDom 1 6 5 "button-primary".toList
      (by decide) (by decide) (by decide) hnear⟩

/-! ### The classifier -/

lemma any_keywordHits_iff (text href name id : JSString) (kws : List JSString) :
    kws.any (keywordHits text href name id) = true ↔
      ∃ kw ∈ kws, includes text kw = true ∨ includes href kw = true ∨
        includes name kw = true ∨ includes id kw = true := by
  simp only [List.any_eq_true, keywordHits, Bool.or_eq_true, or_assoc]

lemma categoryHits_cons (text href name id : JSString) (t : Category) (kws : List JSString)
    (rest : KeywordTable) (c : Category) :
    CategoryHits ((t, kws) :: rest) text href name id c ↔
      (c = t ∧ kws.any (keywordHits text href name id) = true) ∨
        CategoryHits rest text href name id c := by
  unfold CategoryHits
  rw [any_keywordHits_iff]
  constructor
  · rintro ⟨k, hk, h⟩
    rcases List.mem_cons.mp hk with heq | hin
    · cases heq
      exact Or.inl ⟨rfl, h⟩
    · exact Or.inr ⟨k, hin, h⟩
  · rintro (⟨rfl, h⟩ | ⟨k, hin, h⟩)
    · exact ⟨kws, List.mem_cons_self _ _, h⟩
    · exact ⟨k, List.mem_cons_of_mem _ hin, h⟩

lemma categoryHits_mem (text href name id : JSString) (table : KeywordTable) (c : Category)
    (h : CategoryHits table text href name id c) : ∃ kws, (c, kws) ∈ table := by
  obtain ⟨kws, hk, -⟩ := h
  exact ⟨kws, hk⟩

/-- The loop returns none exactly when no category of the table hits. -/
lemma detectLoop_eq_none (text href name id : JSString) (table : KeywordTable) :
    detectLoop text href name id table = none ↔
      ∀ c, ¬ CategoryHits table text href name id c := by
  induction table with
  | nil => simp [detectLoop, CategoryHits]
  | cons head rest ih =>
    obtain ⟨t, kws⟩ := head
    by_cases hit : kws.any (keywordHits text href name id) = true
    · simp only [detectLoop, hit, if_true]
      constructor
      · intro h
        cases h
      · intro h
        exact absurd ((categoryHits_cons text href name id t kws rest t).mpr (Or.inl ⟨rfl, hit⟩))
          (h t)
    · simp only [detectLoop, hit, Bool.false_eq_true, if_false, ih, categoryHits_cons, and_false,
        false_or]

/-- On a table whose categories are listed in the fixed order, the loop
returns the hitting category of least rank. -/
lemma detectLoop_eq_some (text href name id : JSString) (table : KeywordTable)
    (hsorted : table.Pairwise (fun a b => a.1.rank < b.1.rank)) (c : Category) :
    detectLoop text href name id table = some c ↔
      CategoryHits table text href name id c ∧
        ∀ c2 : Category, c2.rank < c.rank → ¬ CategoryHits table text href name id c2 := by
  induction table with
  | nil => simp [detectLoop, CategoryHits]
  | cons head rest ih =>
    obtain ⟨t, kws⟩ := head
    rw [List.pairwise_cons] at hsorted
    obtain ⟨hhead, hrest⟩ := hsorted
    have hlater : ∀ c2, CategoryHits rest text href name id c2 → t.rank < c2.rank := by
      intro c2 h2
      obtain ⟨k2, hk2⟩ := categoryHits_mem text href name id rest c2 h2
      exact hhead (c2, k2) hk2
    by_cases hit : kws.any (keywordHits text href name id) = true
    · simp only [detectLoop, hit, if_true, categoryHits_cons]
      constructor
      · intro h
        cases h
        refine ⟨Or.inl ⟨rfl, trivial⟩, ?_⟩
        rintro c2 hlt (⟨rfl, -⟩ | h2)
        · exact lt_irrefl _ hlt
        · exact lt_asymm hlt (hlater c2 h2)
      · rintro ⟨hc, hmin⟩
        rcases hc with ⟨rfl, -⟩ | h2
        · rfl
        · exact absurd (Or.inl ⟨rfl, trivial⟩) (hmin t (hlater c h2))
    · have hit2 : kws.any (keywordHits text href name id) = false := by simpa using hit
      simp only [detectLoop, hit2, Bool.false_eq_true, if_false, ih hrest, categoryHits_cons,
        and_false, false_or]

/-- The Kelvin sign lowers to `k`: the text made of `O` and the Kelvin sign
lowers to "ok". -/
lemma toLowerCase_kelvin : toLowerCase ['O', Char.ofNat 0x212A] = "ok".toList := by
  decide

/-- The value of `attr?.toLowerCase() || ''` is the lower-cased attribute, and
the empty string when the attribute is absent. -/
lemma lowerOrEmpty_eq (attr : Option JSString) : lowerOrEmpty attr = lowerAttr attr := by
  cases attr with
  | none => rfl
  | some a =>
    unfold lowerOrEmpty lowerAttr jsOr truthy
    cases h : toLowerCase a <;> simp [h]

/-- When the text extraction returns, the detector returns and, on a sorted
table, its result meets the first-match specification for the lower-cased
text, href attribute, name attribute and id. -/
lemma firstMatch_of_sorted (sensitivity : Option JSString) (element : Node)
    (extracted : JSString) (hext : getElementText element = some extracted)
    (hsorted : (currentKeywords sensitivity).Pairwise (fun a b => a.1.rank < b.1.rank)) :
    ∃ r, detectActionType sensitivity element = some r ∧
      FirstMatch (currentKeywords sensitivity) (toLowerCase extracted) (lowerAttr element.href)
        (lowerAttr element.name) (toLowerCase element.id) r := by
  refine ⟨detectLoop (toLowerCase extracted) (lowerAttr element.href) (lowerAttr element.name)
    (toLowerCase element.id) (currentKeywords sensitivity), ?_, ?_⟩
  · unfold detectActionType
    rw [hext]
    simp only [lowerOrEmpty_eq]
    rfl
  · unfold FirstMatch
    refine ⟨fun c => detectLoop_eq_some _ _ _ _ _ hsorted c, detectLoop_eq_none _ _ _ _ _, ?_⟩
    intro hp _
    rw [detectLoop_eq_some _ _ _ _ _ hsorted]
    refine ⟨hp, ?_⟩
    intro c2 hlt
    exact absurd hlt (Nat.not_lt_zero _)

/-- C4 fails on an element for which getElementText throws: for the list item
with the number 3 as its value and no text, detectActionType throws under each
of the three sensitivities instead of returning none. The detector throws
exactly when getElementText does. Whenever the text extraction returns, the
detector returns, under each of relaxed, balanced and strict, the first
category, in the order purchase, signup, download, important, of that
sensitivity's table that has a keyword occurring in the lower-cased text, href
attribute, name attribute or id, and none exactly when no keyword of the table
occurs; purchase wins over important, as for the "Confirm and buy" button. -/
theorem detectActionType_first_match (element : Node) :
    (detectActionType (some "relaxed".toList) numberItem = none ∧
      detectActionType (some "balanced".toList) numberItem = none ∧
      detectActionType (some "strict".toList) numberItem = none) ∧
    (∀ sensitivity : Option JSString,
      detectActionType sensitivity element = none ↔ getElementText element = none) ∧
    (∀ extracted, getElementText element = some extracted →
      (∃ r, detectActionType (some "relaxed".toList) element = some r ∧
        FirstMatch keywordsRelaxed (toLowerCase extracted) (lowerAttr element.href)
          (lowerAttr element.name) (toLowerCase element.id) r) ∧
      (∃ r, detectActionType (some "balanced".toList) element = some r ∧
        FirstMatch keywordsBalanced (toLowerCase extracted) (lowerAttr element.href)
          (lowerAttr element.name) (toLowerCase element.id) r) ∧
      (∃ r, detectActionType (some "strict".toList) element = some r ∧
        FirstMatch keywordsStrict (toLowerCase extracted) (lowerAttr element.href)
          (lowerAttr element.name) (toLowerCase element.id) r)) ∧
    (getElementText confirmBuyButton = some "Confirm and buy".toList ∧
      includes (toLowerCase "Confirm and buy".toList) "buy".toList = true ∧
      includes (toLowerCase "Confirm and buy".toList) "confirm".toList = true ∧
      detectActionType (some "balanced".toList) confirmBuyButton =
        some (some Category.purchase)) := by
  refine ⟨⟨by decide, by decide, by decide⟩, ?_, ?_, by decide, by decide, by decide,
    by decide⟩
  · intro sensitivity
    unfold detectActionType
    cases hg : getElementText element <;> simp
  · intro extracted hext
    exact ⟨firstMatch_of_sorted (some "relaxed".toList) element extracted hext (by decide),
      firstMatch_of_sorted (some "balanced".toList) element extracted hext (by decide),
      firstMatch_of_sorted (some "strict".toList) element extracted hext (by decide)⟩

/-- C7: an element whose extracted text is "OK" and whose href, name and id
are empty is classified as important under sensitivity strict and as none
under sensitivity relaxed. -/
theorem detectActionType_ok (el : Node) (htext : getElementText el = some "OK".toList)
    (hhref : el.href = none ∨ el.href = some []) (hname : el.name = none ∨ el.name = some [])
    (hid : el.id = []) :
    detectActionType (some "strict".toList) el = some (some Category.important) ∧
    detectActionType (some "relaxed".toList) el = some none := by
  unfold detectActionType
  rw [htext, hid]
  rcases hhref with h1 | h1 <;> rcases hname with h2 | h2 <;> rw [h1, h2] <;> decide

/-- C7 at the sample "OK" button. -/
theorem detectActionType_ok_witness :
    getElementText okButton = some "OK".toList ∧
    detectActionType (some "strict".toList) okButton = some (some Category.important) ∧
    detectActionType (some "relaxed".toList) okButton = some none :=
  ⟨by decide, detectActionType_ok okButton (by decide) (Or.inl rfl) (Or.inl rfl) rfl⟩

/-- A sensitivity whose key is neither a table name nor a name inherited from
`Object.prototype` selects the balanced table. -/
lemma detectActionType_default (sensitivity : Option JSString) (element : Node)
    (h1 : propertyKey sensitivity ≠ "relaxed".toList)
    (h2 : propertyKey sensitivity ≠ "balanced".toList)
    (h3 : propertyKey sensitivity ≠ "strict".toList)
    (h4 : propertyKey sensitivity ∉ objectPrototypeKeys) :
    detectActionType sensitivity element = detectActionType (some "balanced".toList) element := by
  have hcur : currentKeywords sensitivity = keywordsBalanced := by
    unfold currentKeywords keywordsByLevel
    simp only [h1, h2, h3, h4, if_false]
  have hbal : currentKeywords (some "balanced".toList) = keywordsBalanced := by decide
  unfold detectActionType
  rw [hcur, hbal]

/-- C8 fails for the sensitivity value "constructor": it is none of relaxed,
balanced and strict, yet the "Buy now" button, which the balanced table
classifies as purchase, is classified as none, because the lookup
`keywordsByLevel["constructor"]` finds the inherited constructor function, a
truthy value without entries, so that the default is not taken. -/
theorem detectActionType_inherited_key :
    "constructor".toList ∉ ["relaxed".toList, "balanced".toList, "strict".toList] ∧
    detectActionType (some "constructor".toList) buyButton = some none ∧
    detectActionType (some "balanced".toList) buyButton = some (some Category.purchase) := by
  refine ⟨by decide, by decide, by decide⟩

/-! ### The extracted text -/

lemma substring_zero (s : JSString) (n : Nat) : substring s 0 n = s.take n := by
  simp [substring]

lemma length_substring_zero_le (s : JSString) (n : Nat) : (substring s 0 n).length ≤ n := by
  rw [substring_zero, List.length_take]
  exact Nat.min_le_left _ _

/-- An opening of the Decision Surface by `handleClick` comes from an accepted
click whose read succeeded, for the element resolved from the target, and
carries the `actionInfo` built from the text extracted from that element. -/
lemma modalInject_of_handleClick (st : Controller) (env : Env) (event : ClickEvent)
    (info : ActionInfo) (e : NodeId)
    (h : Effect.modalInject info e ∈ (handleClick st env event).2) :
    Accepted st env event ∧ findRelevantElement env.dom event.target = some e ∧
      env.readFails = false ∧
      ∃ cat extracted, detectActionType st.sensitivity (env.dom e) = some (some cat) ∧
        getElementText (env.dom e) = some extracted ∧
        info = buildActionInfo env extracted cat := by
  by_cases hacc : Accepted st env event
  · obtain ⟨el, cat, hel, hcat, heq⟩ := handleClick_of_accepted st env event hacc
    obtain ⟨extracted, hext⟩ := getElementText_of_detect _ _ _ hcat
    rw [heq] at h
    cases hr : env.readFails with
    | true => simp [intercept, hr] at h
    | false =>
      simp only [intercept, hr, hext, Bool.false_eq_true, if_false, List.cons_append,
        List.nil_append, List.mem_cons, Effect.modalInject.injEq, List.mem_singleton,
        reduceCtorEq, false_or, List.not_mem_nil, or_false] at h
      obtain ⟨rfl, rfl⟩ := h
      exact ⟨hacc, hel, rfl, cat, extracted, hcat, hext, rfl⟩
  · rw [handleClick_of_not_accepted st env event hacc] at h
    simp at h

/-- When the chain of `||` yields a string, it is the first non-empty value
among the four texts and the value taken as a text. -/
lemma textCandidate_str (el : Node) (s : JSString) (h : textCandidate el = JSValue.str s) :
    s = firstNonEmpty [el.innerText, el.textContent, el.ariaLabel, el.title,
      el.value.asText] := by
  revert h
  rcases el with ⟨tn, ro, ty, hr, na, al, ti, ca, sv, id, it, tc, va, pa⟩
  rcases it with _ | _ | _ <;> rcases tc with _ | _ | _ <;> rcases al with _ | _ | _ <;>
    rcases ti with _ | _ | _ <;> rcases va with _ | (_ | _) | (_ | _) <;>
    simp [textCandidate, JSValue.or, JSValue.truthy, JSValue.ofOption, firstNonEmpty,
      JSValue.asText] <;>
    intro h <;> exact h.symm

/-- C9 fails on an element whose first truthy candidate is a number: for the
list item with value 3 and no text getElementText throws. It throws exactly
when innerText, textContent, aria-label and title are all empty or absent and
the value is a truthy number. Whenever it returns, its result is the first 100
characters of the first non-empty value among innerText, textContent,
aria-label, title and the value when that is a string (the empty string when
there is none), so has at most 100 characters; and the actionText of every
ActionInfo that handleClick hands to the Decision Surface is the extracted
text trimmed and cut to 60 characters, so has at most 60. -/
theorem getElementText_priority (el : Node) :
    getElementText numberItem = none ∧
    (getElementText el = none ↔
      firstNonEmpty [el.innerText, el.textContent, el.ariaLabel, el.title] = [] ∧
        el.value = JSValue.num true) ∧
    (∀ extracted, getElementText el = some extracted →
      extracted =
        (firstNonEmpty [el.innerText, el.textContent, el.ariaLabel, el.title,
          el.value.asText]).take 100 ∧
      extracted.length ≤ 100) ∧
    (∀ (st : Controller) (env : Env) (event : ClickEvent) (info : ActionInfo) (e : NodeId),
      Effect.modalInject info e ∈ (handleClick st env event).2 →
        ∃ extracted, getElementText (env.dom e) = some extracted ∧
          info.actionText = (trim extracted).take 60 ∧
          info.actionText.length ≤ 60) := by
  refine ⟨by decide, ?_, ?_, ?_⟩
  · rcases el with ⟨tn, ro, ty, hr, na, al, ti, ca, sv, id, it, tc, va, pa⟩
    rcases it with _ | _ | _ <;> rcases tc with _ | _ | _ <;> rcases al with _ | _ | _ <;>
      rcases ti with _ | _ | _ <;> rcases va with _ | (_ | _) | (_ | _) <;>
      simp [getElementText, textCandidate, JSValue.or, JSValue.truthy, JSValue.ofOption,
        firstNonEmpty]
  · intro extracted hext
    have hlen : extracted.length ≤ 100 := by
      unfold getElementText at hext
      cases hc : textCandidate el with
      | str s =>
        rw [hc] at hext
        cases hext
        exact length_substring_zero_le _ _
      | undefined => simp [hc] at hext
      | num b => simp [hc] at hext
    refine ⟨?_, hlen⟩
    unfold getElementText at hext
    cases hc : textCandidate el with
    | str s =>
      rw [hc] at hext
      cases hext
      rw [substring_zero, textCandidate_str el s hc]
    | undefined => simp [hc] at hext
    | num b => simp [hc] at hext
  · intro st env event info e h
    obtain ⟨-, -, -, cat, extracted, -, hext, rfl⟩ :=
      modalInject_of_handleClick st env event info e h
    exact ⟨extracted, hext, substring_zero _ _, length_substring_zero_le _ _⟩

/-! ### Resolution of the Decision Surface -/

/-- C10 fails when Save is activated twice before the host is removed: for the
one intercepted click of the pending sample page, committed with reason
"testing" and mood "Calm", two clicks on Save give two saveDecision calls, two
stored entries and two replay clicks on the button. With a single click on
Save there is one saveDecision call, with the entry built from the actionInfo,
the payload and the generated id, then the removal of pendingContext, then the
replay (detach, one click on the button, reattach after 500 ms), and the entry
is stored with reason "testing" and mood "Calm". -/
theorem commit_twice_for_one_click :
    pendingPage.hosts.map (fun h => (h.element, h.info)) = [(0, sampleInfo)] ∧
    ((run pendingPage commitTwice).2.filter Effect.isSaveCall).length = 2 ∧
    (run pendingPage commitTwice).2.filter Effect.isReplayClick =
      [Effect.elementClick 0, Effect.elementClick 0] ∧
    (run pendingPage commitTwice).1.store.decisions.map (fun d => (d.reason, d.mood)) =
      [("testing".toList, "Calm".toList), ("testing".toList, "Calm".toList)] ∧
    (run pendingPage commitOnce).2 =
      [ Effect.saveDecision (entryOf sampleInfo sampleData (generateId zeroRand)) true,
        Effect.storageRemove [pendingContextKey], Effect.consoleLog,
        Effect.removeClickListener, Effect.elementClick 0,
        Effect.setTimeoutAddClickListener 500 ] ∧
    (run pendingPage commitOnce).1.store.decisions =
      [entryOf sampleInfo sampleData (generateId zeroRand)] ∧
    (run pendingPage commitOnce).1.store.pendingContext = none := by
  refine ⟨by decide, by decide, by decide, by decide, by decide, by decide, by decide⟩

/-- C11 fails when Skip is activated twice before the host is removed, or after
a commit: for the one intercepted click of the pending sample page, two clicks
on Skip give two replay clicks on the button, and a commit followed by a click
on Skip gives a saveDecision call, a stored entry and two replay clicks. With a
single click on Skip there is no saveDecision call and no removal from the
store, the store is as it was, and the replay is detach, one click on the
button, reattach after 500 ms. -/
theorem skip_twice_for_one_click :
    pendingPage.hosts.map (fun h => (h.element, h.info)) = [(0, sampleInfo)] ∧
    (run pendingPage skipTwice).2.filter Effect.isReplayClick =
      [Effect.elementClick 0, Effect.elementClick 0] ∧
    ((run pendingPage commitThenSkip).2.filter Effect.isSaveCall).length = 1 ∧
    (run pendingPage commitThenSkip).1.store.decisions.length = 1 ∧
    (run pendingPage commitThenSkip).2.filter Effect.isReplayClick =
      [Effect.elementClick 0, Effect.elementClick 0] ∧
    (run pendingPage skipOnce).2 =
      [ Effect.consoleLog, Effect.removeClickListener, Effect.elementClick 0,
        Effect.setTimeoutAddClickListener 500 ] ∧
    (run pendingPage skipOnce).1.store = pendingPage.store := by
  refine ⟨by decide, by decide, by decide, by decide, by decide, by decide, by decide⟩

/-- C12 fails when the write of the store throws: on the sample commit
saveDecision returns false and nothing is stored, yet the save callback goes on
to remove pendingContext and to replay the click on the element. -/
theorem onSave_replays_after_failed_save :
    (saveDecision emptyStore writeFails
      (entryOf (sampleInfo) sampleData
        (generateId zeroRand))).1 = false ∧
    (onSave (sampleInfo) 0 zeroRand emptyStore writeFails
      sampleData).1.decisions = [] ∧
    (onSave (sampleInfo) 0 zeroRand emptyStore writeFails
      sampleData).2 =
      [ Effect.saveDecision
          (entryOf (sampleInfo) sampleData
            (generateId zeroRand)) false,
        Effect.storageRemove [pendingContextKey], Effect.consoleLog,
        Effect.removeClickListener, Effect.elementClick 0,
        Effect.setTimeoutAddClickListener 500 ] := by
  refine ⟨by decide, by decide, by decide⟩

/-- C20: saveDecision never throws: for every store, entry and behaviour of the
store calls it returns a boolean, which is true exactly when the write of the
decisions list completed without error; on false the store is as it was. -/
theorem saveDecision_total (store : Store) (faults : StoreFaults) (entry : DecisionEntry) :
    saveDecisionTry store faults entry = .ok (saveDecision store faults entry) ∧
    ((saveDecision store faults entry).1 = true ↔
      ∃ written, storageSetDecisions store faults (getAllDecisions store faults ++ [entry]) =
        .ok written) ∧
    ((saveDecision store faults entry).1 = false →
      (saveDecision store faults entry).2 = store) := by
  rcases faults with ⟨g, w⟩
  cases g <;> cases w <;>
    simp [saveDecisionTry, saveDecisionBody, getAllDecisionsTry, storageGetDecisions,
      storageSetDecisions, saveDecision, getAllDecisions, bind, Except.bind, pure, Except.pure]

/-! ### The handlers of the Decision Surface -/

lemma dropWhile_eq_nil_of_all (p : Char → Bool) (t : List Char)
    (h : ∀ x ∈ t.dropWhile p, p x = true) : t.dropWhile p = [] := by
  induction t with
  | nil => rfl
  | cons a t ih =>
    by_cases ha : p a = true
    · simp only [List.dropWhile_cons, ha, if_true] at h ⊢
      exact ih h
    · exfalso
      simp only [List.dropWhile_cons, ha] at h
      exact ha (h a (List.mem_cons_self _ _))

/-- The trimmed text is empty exactly when the text is empty or consists of
white space only. -/
lemma trim_eq_nil_iff (t : JSString) : trim t = [] ↔ t.all isTrimChar = true := by
  unfold trim
  rw [List.reverse_eq_nil_iff, List.dropWhile_eq_nil_iff, List.all_eq_true]
  constructor
  · intro h
    have h1 : t.dropWhile isTrimChar = [] :=
      dropWhile_eq_nil_of_all _ _ (fun x hx => h x (List.mem_reverse.mpr hx))
    exact List.dropWhile_eq_nil_iff.mp h1
  · intro h x hx
    have h1 : t.dropWhile isTrimChar = [] := List.dropWhile_eq_nil_iff.mpr h
    rw [h1] at hx
    simp at hx

lemma mood_label_mem (m : Mood) : m.label ∈ moodLabels := by
  cases m <;> simp [moodLabels]

/-- The payload of a save made by the Save handler has a non-empty reason and
a mood of the data model. -/
lemma saveHandler_payload (s : Surface) (data : SaveData)
    (h : SurfaceOut.onSave data ∈ (saveHandler s).2) :
    data.reason = trim s.reasonText ∧ data.reason ≠ [] ∧ data.mood ∈ moodLabels := by
  unfold saveHandler at h
  by_cases he : (trim s.reasonText).isEmpty = true
  · simp [he] at h
  · simp only [he, Bool.false_eq_true, if_false, List.mem_cons, reduceCtorEq,
      SurfaceOut.onSave.injEq, List.mem_singleton, false_or, List.not_mem_nil, or_false] at h
    subst h
    refine ⟨rfl, ?_, ?_⟩
    · intro h0
      simp only at h0
      exact he (by simp [h0])
    · cases hm : s.selectedMood with
      | none => simp [moodLabels]
      | some m => exact mood_label_mem m

/-- C14: activating Save with an empty or whitespace-only text invokes no
callback and does not close the surface; otherwise it closes the surface and
invokes onSave with the trimmed, non-empty text and with the selected mood or
"Neutral"; so every entry the save callback hands to saveDecision has a
non-empty reason and a mood among Calm, Rushed, Excited, Anxious, Unsure and
Neutral. -/
theorem saveHandler_validates (s : Surface) :
    (s.reasonText.all isTrimChar = true →
      (saveHandler s).2 = [] ∧ (saveHandler s).1.closing = s.closing ∧
        (saveHandler s).1.removalTimers = s.removalTimers) ∧
    (s.reasonText.all isTrimChar = false →
      trim s.reasonText ≠ [] ∧
      (saveHandler s).2 =
        [ SurfaceOut.closed,
          SurfaceOut.onSave
            { reason := trim s.reasonText,
              mood := (s.selectedMood.map Mood.label).getD neutralLabel } ] ∧
      (saveHandler s).1.closing = true) ∧
    (∀ (data : SaveData) (info : ActionInfo) (e : NodeId) (rand : Nat → Fin 16)
        (store : Store) (faults : StoreFaults) (entry : DecisionEntry) (ok : Bool),
      SurfaceOut.onSave data ∈ (saveHandler s).2 →
      Effect.saveDecision entry ok ∈ (onSave info e rand store faults data).2 →
        entry.reason ≠ [] ∧ entry.mood ∈ moodLabels) := by
  refine ⟨?_, ?_, ?_⟩
  · intro h
    have h0 : trim s.reasonText = [] := (trim_eq_nil_iff _).mpr h
    simp [saveHandler, h0]
  · intro h
    have h0 : trim s.reasonText ≠ [] := by
      intro h1
      rw [(trim_eq_nil_iff _).mp h1] at h
      cases h
    have h1 : (trim s.reasonText).isEmpty = false := by
      simpa [List.isEmpty_iff] using h0
    refine ⟨h0, ?_, ?_⟩
    · cases hm : s.selectedMood <;> simp [saveHandler, h1, hm]
    · simp [saveHandler, h1, Surface.close]
  · intro data info e rand store faults entry ok hd he
    obtain ⟨-, hr, hm⟩ := saveHandler_payload s data hd
    simp only [onSave, resumeAction, List.cons_append, List.nil_append, List.mem_cons,
      Effect.saveDecision.injEq, reduceCtorEq, false_or, List.not_mem_nil, or_false] at he
    obtain ⟨rfl, -⟩ := he
    exact ⟨hr, hm⟩

/-- C15 fails on toggle-off: in the Decision Surface a click on a mood button
always selects it, also when it is the selected one, so that after two clicks
on Calm a Save commits mood "Calm", not "Neutral"; the mood selector of the
popup does deselect on the second click. The other two parts hold: one button
is selected after every click, and it is the clicked one. -/
theorem moodHandler_keeps_selected :
    (moodHandler (moodHandler Surface.initial Mood.calm).1 Mood.calm).1.selectedMood =
      some Mood.calm ∧
    (surfaceRun Surface.initial
      [ UserInput.typeText "x".toList, UserInput.moodClick Mood.calm,
        UserInput.moodClick Mood.calm, UserInput.saveClick ]).2 =
      [ SurfaceOut.saveClicked, SurfaceOut.closed,
        SurfaceOut.onSave { reason := "x".toList, mood := "Calm".toList } ] ∧
    (popupMoodHandler (popupMoodHandler { selectedMood := none, selectedCards := [] } Mood.calm)
      Mood.calm).selectedMood = none ∧
    (∀ (s : Surface) (m : Mood),
      (moodHandler s m).1.selectedMood = some m ∧ (moodHandler s m).1.selectedButtons = [m]) := by
  refine ⟨by decide, by decide, by decide, fun s m => ⟨rfl, rfl⟩⟩

lemma saveHandler_no_click (s : Surface) :
    (saveHandler s).2.count SurfaceOut.saveClicked = 0 ∧
    (saveHandler s).2.count SurfaceOut.skipClicked = 0 ∧
    (saveHandler s).2.count SurfaceOut.preventDefault = 0 := by
  unfold saveHandler
  by_cases he : (trim s.reasonText).isEmpty = true
  · simp [he]
  · simp [he, List.count_cons]

/-- C16: in the keydown handler of the reasoning input, Enter without Shift
clicks Save once and Skip never; Enter with Shift and without Ctrl and Meta
does nothing at all (no click, no preventDefault); Enter with Ctrl or Meta
clicks Save once, whatever Shift is; Escape clicks Skip once and Save never;
every other key does nothing. -/
theorem keydownHandler_keys (s : Surface) (e : KeyEvent) :
    (e.key = enterKey → e.shiftKey = false →
      (keydownHandler s e).2.count SurfaceOut.saveClicked = 1 ∧
      (keydownHandler s e).2.count SurfaceOut.skipClicked = 0) ∧
    (e.key = enterKey → e.shiftKey = true → e.ctrlKey = false → e.metaKey = false →
      keydownHandler s e = (s, [])) ∧
    (e.key = enterKey → (e.ctrlKey = true ∨ e.metaKey = true) →
      (keydownHandler s e).2.count SurfaceOut.saveClicked = 1 ∧
      (keydownHandler s e).2.count SurfaceOut.skipClicked = 0) ∧
    (e.key = escapeKey →
      (keydownHandler s e).2.count SurfaceOut.skipClicked = 1 ∧
      (keydownHandler s e).2.count SurfaceOut.saveClicked = 0) ∧
    (e.key ≠ enterKey → e.key ≠ escapeKey → keydownHandler s e = (s, [])) := by
  obtain ⟨h1, h2, h3⟩ := saveHandler_no_click s
  have hne : enterKey ≠ escapeKey := by decide
  have hne2 : escapeKey ≠ enterKey := by decide
  refine ⟨?_, ?_, ?_, ?_, ?_⟩
  · intro hk hs
    cases hm : e.metaKey <;> cases hc : e.ctrlKey <;>
      simp [keydownHandler, clickSave, hk, hs, hm, hc, hne, List.count_cons, h1, h2]
  · intro hk hs hc hm
    simp [keydownHandler, hk, hs, hm, hc, hne]
  · intro hk hcm
    rcases hcm with hc | hm
    · simp [keydownHandler, clickSave, hk, hc, hne, List.count_cons, h1, h2]
    · simp [keydownHandler, clickSave, hk, hm, hne, List.count_cons, h1, h2]
  · intro hk
    simp [keydownHandler, clickSkip, skipHandler, hk, hne2, List.count_cons]
  · intro hk1 hk2
    simp [keydownHandler, hk1, hk2]

/-! ### The page -/

lemma foldl_invariant {α β : Type} (P : α → Prop) (f : α → β → α)
    (hf : ∀ a b, P a → P (f a b)) (l : List β) (a : α) (ha : P a) : P (l.foldl f a) := by
  induction l generalizing a with
  | nil => exact ha
  | cons b l ih => exact ih (f a b) (hf a b ha)

lemma inject_hosts_le (p : Page) (info : ActionInfo) (element : NodeId)
    (h : p.hosts.length ≤ 1) : (inject p info element).hosts.length ≤ 1 := by
  unfold inject
  by_cases he : p.hosts.isEmpty = true
  · have h0 : p.hosts = [] := List.isEmpty_iff.mp he
    simp [he, h0]
  · simpa [he] using h

lemma applyBasic_hosts_le (p : Page) (eff : Effect) (h : p.hosts.length ≤ 1) :
    (applyBasic p eff).hosts.length ≤ 1 := by
  cases eff <;> first | exact h | exact inject_hosts_le p _ _ h

lemma dispatchClick_hosts_le (p : Page) (env : Env) (event : ClickEvent)
    (h : p.hosts.length ≤ 1) : (dispatchClick p env event).1.hosts.length ≤ 1 := by
  unfold dispatchClick
  by_cases hl : p.listenerAttached = true
  · simp only [hl, if_true]
    exact foldl_invariant (fun q : Page => q.hosts.length ≤ 1) applyBasic
      (fun a b ha => applyBasic_hosts_le a b ha) _ _ h
  · simpa [hl] using h

lemma applyEffect_hosts_le (env : Env) (acc : Page × List Effect) (eff : Effect)
    (h : acc.1.hosts.length ≤ 1) : (applyEffect env acc eff).1.hosts.length ≤ 1 := by
  cases eff <;>
    first
    | exact dispatchClick_hosts_le acc.1 env _ h
    | exact applyBasic_hosts_le acc.1 _ h

lemma runCallback_hosts_le (p : Page) (h : Host) (env : Env) (rand : Nat → Fin 16)
    (faults : StoreFaults) (out : SurfaceOut) (hp : p.hosts.length ≤ 1) :
    (runCallback p h env rand faults out).1.hosts.length ≤ 1 := by
  cases out with
  | onSave data =>
    exact foldl_invariant (fun q : Page × List Effect => q.1.hosts.length ≤ 1)
      (applyEffect env) (fun a b ha => applyEffect_hosts_le env a b ha) _ _ hp
  | onSkip =>
    exact foldl_invariant (fun q : Page × List Effect => q.1.hosts.length ≤ 1)
      (applyEffect env) (fun a b ha => applyEffect_hosts_le env a b ha) _ _ hp
  | _ => exact hp

lemma userInput_hosts_le (p : Page) (modalId : Nat) (input : UserInput) (env : Env)
    (rand : Nat → Fin 16) (faults : StoreFaults) (hp : p.hosts.length ≤ 1) :
    (userInput p modalId input env rand faults).1.hosts.length ≤ 1 := by
  unfold userInput
  cases hf : p.hosts.find? (fun h => h.modalId = modalId) with
  | none => exact hp
  | some h =>
    simp only
    refine foldl_invariant (fun q : Page × List Effect => q.1.hosts.length ≤ 1)
      (fun acc out =>
        ((runCallback acc.1 h env rand faults out).1,
          acc.2 ++ (runCallback acc.1 h env rand faults out).2))
      (fun a b ha => runCallback_hosts_le a.1 h env rand faults b ha) _ _ ?_
    simpa using hp

lemma step_hosts_le (p : Page) (ev : PageEvent) (hp : p.hosts.length ≤ 1) :
    (step p ev).1.hosts.length ≤ 1 := by
  cases ev with
  | settingsLoaded enabled sensitivity categories =>
    cases enabled <;> simpa [step, onSettingsLoaded, initDetection] using hp
  | storageChanged changes =>
    rcases changes with ⟨a, s, c⟩
    rcases a with _ | _ | _ <;> rcases s with _ | _ <;> rcases c with _ | _ | _ <;>
      simpa [step, onStorageChanged, initDetection, cleanupDetection] using hp
  | click env event => exact dispatchClick_hosts_le p env event hp
  | userInput modalId input env rand faults =>
    exact userInput_hosts_le p modalId input env rand faults hp
  | reattachTimer =>
    by_cases h0 : p.reattachTimers = 0
    · simpa [step, h0] using hp
    · simpa [step, h0] using hp
  | removalTimer modalId =>
    exact le_trans (List.length_filter_le _ _) hp

lemma run_hosts_le (p : Page) (evs : List PageEvent) (hp : p.hosts.length ≤ 1) :
    (run p evs).1.hosts.length ≤ 1 := by
  induction evs generalizing p with
  | nil => exact hp
  | cons ev rest ih => exact ih (step p ev).1 (step_hosts_le p ev hp)

/-- C17: in every state the page reaches from its start, by whatever sequence
of clicks, user inputs, configuration events and timers, the document holds at
most one surface host; and an inject while a host is present leaves the hosts
of the document, with their surface state and the actionInfo and element of
their callbacks, exactly as they are. -/
theorem single_surface_host (store : Store) (evs : List PageEvent) :
    (run (initialPage store) evs).1.hosts.length ≤ 1 ∧
    (∀ (p : Page) (info : ActionInfo) (element : NodeId), p.hosts ≠ [] →
      (inject p info element).hosts = p.hosts ∧
      (inject p info element).listenerAttached = p.listenerAttached ∧
      (inject p info element).ctl = p.ctl ∧
      (inject p info element).store = p.store) := by
  refine ⟨run_hosts_le _ evs (by simp [initialPage]), ?_⟩
  intro p info element hne
  have he : p.hosts.isEmpty = false := by
    cases hh : p.hosts with
    | nil => exact absurd hh hne
    | cons a l => rfl
  simp [inject, he]

/-- C19, as stated, fails: the sample page is pending (its Decision Surface is
open and not resolved) with the click listener attached, and the notification
that autoDetectionEnabled became false detaches the listener at once, the page
still pending. -/
theorem storageChanged_detaches_while_pending :
    pendingPage.pending = true ∧
    pendingPage.listenerAttached = true ∧
    (step pendingPage (PageEvent.storageChanged disableChange)).1.pending = true ∧
    (step pendingPage (PageEvent.storageChanged disableChange)).1.listenerAttached = false := by
  refine ⟨by decide, by decide, by decide, by decide⟩

/-- C19, amended: a configuration-change notification is applied at once in
every state of the page, the pending state included: the click listener is
attached when the new autoDetectionEnabled is truthy, detached when it is
falsy, and left as it is when the notification does not carry
autoDetectionEnabled; the surface hosts and the pending timers are left as
they are. -/
theorem storageChanged_immediate (p : Page) (changes : Changes) :
    (changes.autoDetectionEnabled = some true →
      (step p (PageEvent.storageChanged changes)).1.listenerAttached = true ∧
      (step p (PageEvent.storageChanged changes)).1.ctl.detectionEnabled = true) ∧
    (changes.autoDetectionEnabled = some false →
      (step p (PageEvent.storageChanged changes)).1.listenerAttached = false ∧
      (step p (PageEvent.storageChanged changes)).1.ctl.detectionEnabled = false) ∧
    (changes.autoDetectionEnabled = none →
      (step p (PageEvent.storageChanged changes)).1.listenerAttached = p.listenerAttached ∧
      (step p (PageEvent.storageChanged changes)).1.ctl.detectionEnabled =
        p.ctl.detectionEnabled) ∧
    (step p (PageEvent.storageChanged changes)).1.hosts = p.hosts ∧
    (step p (PageEvent.storageChanged changes)).1.pending = p.pending ∧
    (step p (PageEvent.storageChanged changes)).1.reattachTimers = p.reattachTimers := by
  rcases changes with ⟨a, s, c⟩
  rcases a with _ | _ | _ <;> rcases s with _ | _ <;> rcases c with _ | _ | _ <;>
    simp [step, onStorageChanged, initDetection, cleanupDetection, Page.pending]

/-- The save callback on the page: its effects are those of `onSave` alone,
the click it dispatches finding the listener detached. -/
lemma runCallback_onSave (p : Page) (h : Host) (env : Env) (rand : Nat → Fin 16)
    (faults : StoreFaults) (data : SaveData) :
    (runCallback p h env rand faults (SurfaceOut.onSave data)).2 =
      (onSave h.info h.element rand p.store faults data).2 ∧
    (runCallback p h env rand faults (SurfaceOut.onSave data)).1.listenerAttached = false := by
  simp [runCallback, onSave, resumeAction, applyEffect, applyBasic, dispatchClick]

/-- The skip callback on the page: its effects are those of `onSkip` alone. -/
lemma runCallback_onSkip (p : Page) (h : Host) (env : Env) (rand : Nat → Fin 16)
    (faults : StoreFaults) :
    (runCallback p h env rand faults SurfaceOut.onSkip).2 = (onSkip h.element p.store).2 ∧
    (runCallback p h env rand faults SurfaceOut.onSkip).1.listenerAttached = false := by
  simp [runCallback, onSkip, resumeAction, applyEffect, applyBasic, dispatchClick]

/-- A surface output leaves a detached listener detached and intercepts
nothing. -/
lemma runCallback_detached (p : Page) (h : Host) (env : Env) (rand : Nat → Fin 16)
    (faults : StoreFaults) (out : SurfaceOut) (hp : p.listenerAttached = false) :
    (runCallback p h env rand faults out).1.listenerAttached = false ∧
    (runCallback p h env rand faults out).2.filter Effect.isInterception = [] := by
  cases out with
  | onSave data =>
    obtain ⟨h1, h2⟩ := runCallback_onSave p h env rand faults data
    rw [h1]
    exact ⟨h2, rfl⟩
  | onSkip =>
    obtain ⟨h1, h2⟩ := runCallback_onSkip p h env rand faults
    rw [h1]
    exact ⟨h2, rfl⟩
  | _ => exact ⟨hp, rfl⟩

/-- An admitted event leaves a detached listener detached and intercepts
nothing. -/
lemma step_detached (p : Page) (ev : PageEvent) (hw : ev.inWindow)
    (hp : p.listenerAttached = false) :
    (step p ev).1.listenerAttached = false ∧
    (step p ev).2.filter Effect.isInterception = [] := by
  cases ev with
  | settingsLoaded enabled sensitivity categories =>
    have he : enabled = false := hw
    subst he
    simp [step, onSettingsLoaded, hp]
  | storageChanged changes =>
    have hc : changes.autoDetectionEnabled ≠ some true := hw
    rcases changes with ⟨a, s, c⟩
    rcases a with _ | _ | _ <;> rcases s with _ | _ <;> rcases c with _ | _ | _ <;>
      simp_all [step, onStorageChanged, initDetection, cleanupDetection]
  | click env event => simp [step, dispatchClick, hp]
  | userInput modalId input env rand faults =>
    simp only [step, userInput]
    cases hf : p.hosts.find? (fun h => h.modalId = modalId) with
    | none => exact ⟨hp, rfl⟩
    | some h =>
      simp only
      refine foldl_invariant
        (fun q : Page × List Effect =>
          q.1.listenerAttached = false ∧ q.2.filter Effect.isInterception = [])
        (fun acc out =>
          ((runCallback acc.1 h env rand faults out).1,
            acc.2 ++ (runCallback acc.1 h env rand faults out).2))
        ?_ _ _ ⟨hp, rfl⟩
      intro a b ha
      obtain ⟨h1, h2⟩ := runCallback_detached a.1 h env rand faults b ha.1
      exact ⟨h1, by simp [List.filter_append, ha.2, h2]⟩
  | reattachTimer => exact absurd hw (fun hf => hf)
  | removalTimer modalId => exact ⟨hp, rfl⟩

lemma run_detached (p : Page) (evs : List PageEvent) (hw : ∀ ev ∈ evs, ev.inWindow)
    (hp : p.listenerAttached = false) :
    (run p evs).1.listenerAttached = false ∧
    (run p evs).2.filter Effect.isInterception = [] := by
  induction evs generalizing p with
  | nil => exact ⟨hp, rfl⟩
  | cons ev rest ih =>
    obtain ⟨h1, h2⟩ := step_detached p ev (hw ev (List.mem_cons_self _ _)) hp
    obtain ⟨h3, h4⟩ := ih (step p ev).1 (fun e he => hw e (List.mem_cons_of_mem _ he)) h1
    exact ⟨h3, by simp [run, List.filter_append, h2, h4]⟩

/-- C13, as stated, fails: after a commit on the sample page, with the timer of
its replay still pending, the notification that switches detection on has the
listener attached again, and a click on the "Sign up" link is intercepted; and
after two commits by a double Enter the timer of the first replay attaches the
listener while the timer of the second is pending, and the same click is
intercepted. -/
theorem guard_window_reopened :
    pageAfterEnable.reattachTimers = 1 ∧
    pageAfterEnable.listenerAttached = true ∧
    Effect.preventDefault ∈
      (step pageAfterEnable (PageEvent.click windowEnv (plainClick 1))).2 ∧
    pageAfterFirstTimer.reattachTimers = 1 ∧
    pageAfterFirstTimer.listenerAttached = true ∧
    Effect.preventDefault ∈
      (step pageAfterFirstTimer (PageEvent.click windowEnv (plainClick 1))).2 := by
  refine ⟨by decide, by decide, by decide, by decide, by decide, by decide⟩

/-- C13, amended: a replay (the save or the skip callback on the page) detaches
the click listener before it clicks the element, and that click triggers no
interception; through every following sequence of events in which no reattach
timer fires and neither the settings read nor a change notification switches
detection on, the listener stays detached and no click is intercepted. -/
theorem replay_guard_window (p : Page) (h : Host) (env : Env) (rand : Nat → Fin 16)
    (faults : StoreFaults) (out : SurfaceOut) (hout : out.isCallback = true)
    (evs : List PageEvent) (hw : ∀ ev ∈ evs, ev.inWindow) :
    (∃ pre post, (runCallback p h env rand faults out).2 =
        pre ++ Effect.removeClickListener :: Effect.elementClick h.element :: post ∧
      pre.filter Effect.isInterception = [] ∧ post.filter Effect.isInterception = []) ∧
    (runCallback p h env rand faults out).1.listenerAttached = false ∧
    (run (runCallback p h env rand faults out).1 evs).1.listenerAttached = false ∧
    (run (runCallback p h env rand faults out).1 evs).2.filter Effect.isInterception = [] := by
  have hdet : (runCallback p h env rand faults out).1.listenerAttached = false := by
    cases out with
    | onSave data => exact (runCallback_onSave p h env rand faults data).2
    | onSkip => exact (runCallback_onSkip p h env rand faults).2
    | _ => cases hout
  refine ⟨?_, hdet, run_detached _ evs hw hdet⟩
  cases out with
  | onSave data =>
    rw [(runCallback_onSave p h env rand faults data).1]
    exact ⟨[Effect.saveDecision _ _, Effect.storageRemove [pendingContextKey],
      Effect.consoleLog], [Effect.setTimeoutAddClickListener 500], rfl, rfl, rfl⟩
  | onSkip =>
    rw [(runCallback_onSkip p h env rand faults).1]
    exact ⟨[Effect.consoleLog], [Effect.setTimeoutAddClickListener 500], rfl, rfl, rfl⟩
  | _ => cases hout

/-- C13, amended, on the sample page: after the skip callback the listener is
detached, and it stays detached while detection is switched off, the "Sign up"
link is clicked and the host is removed. -/
theorem replay_guard_window_witness :
    SurfaceOut.onSkip.isCallback = true ∧
    (∀ ev ∈ quietWindow, ev.inWindow) ∧
    pendingPage.listenerAttached = true ∧
    ((∃ pre post, (runCallback pendingPage sampleHost sampleEnv zeroRand noFaults
        SurfaceOut.onSkip).2 =
        pre ++ Effect.removeClickListener :: Effect.elementClick sampleHost.element :: post ∧
      pre.filter Effect.isInterception = [] ∧ post.filter Effect.isInterception = []) ∧
    (runCallback pendingPage sampleHost sampleEnv zeroRand noFaults
      SurfaceOut.onSkip).1.listenerAttached = false ∧
    (run (runCallback pendingPage sampleHost sampleEnv zeroRand noFaults SurfaceOut.onSkip).1
      quietWindow).1.listenerAttached = false ∧
    (run (runCallback pendingPage sampleHost sampleEnv zeroRand noFaults SurfaceOut.onSkip).1
      quietWindow).2.filter Effect.isInterception = []) :=
  have hw : ∀ ev ∈ quietWindow, ev.inWindow := by
    intro ev hev
    simp only [quietWindow, List.mem_cons, List.mem_singleton, List.not_mem_nil, or_false] at hev
    rcases hev with rfl | rfl | rfl
    · simp [PageEvent.inWindow, disableChange]
    · trivial
    · trivial
  ⟨rfl, hw, by decide,
    replay_guard_window pendingPage sampleHost sampleEnv zeroRand noFaults SurfaceOut.onSkip rfl
      quietWindow hw⟩

/-- C18 fails for two Enter presses before the host is removed: on a surface
with text "x" both presses invoke onSave; on the sample page the host is
still in the document after the first commit (its removal timer pending), and
the two presses give two saveDecision calls, two stored entries and two replay
clicks. A single press gives one of each. -/
theorem surface_resolved_twice :
    ((surfaceRun typedSurface
        [UserInput.keydown plainEnter, UserInput.keydown plainEnter]).2.filter
      SurfaceOut.isCallback).length = 2 ∧
    ((run pendingPage singleEnter).1.hosts.map (fun h => h.surface.removalTimers)) = [1] ∧
    ((run pendingPage doubleEnter).2.filter Effect.isSaveCall).length = 2 ∧
    (run pendingPage doubleEnter).2.filter Effect.isReplayClick =
      [Effect.elementClick 0, Effect.elementClick 0] ∧
    (run pendingPage doubleEnter).1.store.decisions.length = 2 ∧
    ((run pendingPage singleEnter).2.filter Effect.isSaveCall).length = 1 ∧
    (run pendingPage singleEnter).2.filter Effect.isReplayClick = [Effect.elementClick 0] := by
  refine ⟨by decide, by decide, by decide, by decide, by decide, by decide, by decide⟩

/-! ### The generated identifier -/

lemma hexDigit_mem (r : Fin 16) : hexDigit r.val ∈ hexChars := by
  revert r
  decide

lemma hexDigit_variant_mem (r : Fin 16) :
    hexDigit ((r.val &&& 3) ||| 8) ∈ ['8', '9', 'a', 'b'] := by
  revert r
  decide

lemma length_fillTemplate (rand : Nat → Fin 16) (t : List Char) (k : Nat) :
    (fillTemplate rand t k).length = t.length := by
  induction t generalizing k with
  | nil => rfl
  | cons c cs ih =>
    unfold fillTemplate
    split_ifs <;> simp [ih]

/-- Position by position, the filled template has a hexadecimal digit for an
`x`, one of 8, 9, a, b for a `y`, and the character of the template
elsewhere. -/
lemma fillTemplate_getD (rand : Nat → Fin 16) (t : List Char) (k i : Nat) (h : i < t.length) :
    (t.getD i ' ' = 'x' → (fillTemplate rand t k).getD i ' ' ∈ hexChars) ∧
    (t.getD i ' ' = 'y' → (fillTemplate rand t k).getD i ' ' ∈ ['8', '9', 'a', 'b']) ∧
    (t.getD i ' ' ≠ 'x' → t.getD i ' ' ≠ 'y' →
      (fillTemplate rand t k).getD i ' ' = t.getD i ' ') := by
  induction t generalizing k i with
  | nil => simp at h
  | cons c cs ih =>
    cases i with
    | zero =>
      unfold fillTemplate
      by_cases hx : c = 'x'
      · subst hx
        simp [hexDigit_mem]
      · by_cases hy : c = 'y'
        · subst hy
          have := hexDigit_variant_mem (rand k)
          simp only [List.mem_cons, List.mem_singleton, List.not_mem_nil, or_false] at this
          simp [this]
        · simp [hx, hy]
    | succ i =>
      have hi : i < cs.length := by simpa using h
      unfold fillTemplate
      by_cases hx : c = 'x'
      · simpa [hx] using ih (k + 1) i hi
      · by_cases hy : c = 'y'
        · simpa [hx, hy] using ih (k + 1) i hi
        · simpa [hx, hy] using ih k i hi

/-- C21: for every random source generateId returns a string of exactly 36
characters whose characters at positions 8, 13, 18 and 23 are hyphens, whose
other characters are lower-case hexadecimal digits (so no hyphens), whose
character at position 14 is 4 and whose character at position 19 is one of
8, 9, a, b. -/
theorem generateId_format (rand : Nat → Fin 16) :
    (generateId rand).length = 36 ∧
    (∀ i, i < 36 → (i = 8 ∨ i = 13 ∨ i = 18 ∨ i = 23) → (generateId rand).getD i ' ' = '-') ∧
    (∀ i, i < 36 → i ≠ 8 → i ≠ 13 → i ≠ 18 → i ≠ 23 →
      (generateId rand).getD i ' ' ∈ hexChars ∧ (generateId rand).getD i ' ' ≠ '-') ∧
    (generateId rand).getD 14 ' ' = '4' ∧
    (generateId rand).getD 19 ' ' ∈ ['8', '9', 'a', 'b'] := by
  have hlen : uuidTemplate.length = 36 := by decide
  have hgen : generateId rand = fillTemplate rand uuidTemplate 0 := rfl
  have hdash : '-' ∉ hexChars := by decide
  refine ⟨?_, ?_, ?_, ?_, ?_⟩
  · rw [hgen, length_fillTemplate, hlen]
  · intro i hi hpos
    rw [hgen]
    obtain ⟨-, -, h3⟩ := fillTemplate_getD rand uuidTemplate 0 i (by omega)
    rcases hpos with rfl | rfl | rfl | rfl <;> exact h3 (by decide) (by decide)
  · intro i hi h8 h13 h18 h23
    rw [hgen]
    obtain ⟨h1, h2, h3⟩ := fillTemplate_getD rand uuidTemplate 0 i (by omega)
    have hmem : (fillTemplate rand uuidTemplate 0).getD i ' ' ∈ hexChars := by
      interval_cases i
      all_goals first
        | exact absurd rfl h8
        | exact absurd rfl h13
        | exact absurd rfl h18
        | exact absurd rfl h23
        | exact h1 (by decide)
        | (have h4 := h3 (by decide) (by decide); rw [h4]; decide)
        | (have h5 := h2 (by decide); revert h5; generalize
            (fillTemplate rand uuidTemplate 0).getD 19 ' ' = c; intro h5;
            simp only [List.mem_cons, List.mem_singleton, List.not_mem_nil, or_false] at h5;
            rcases h5 with rfl | rfl | rfl | rfl <;> decide)
    exact ⟨hmem, fun heq => hdash (heq ▸ hmem)⟩
  · rw [hgen]
    exact (fillTemplate_getD rand uuidTemplate 0 14 (by decide)).2.2 (by decide) (by decide)
  · rw [hgen]
    exact (fillTemplate_getD rand uuidTemplate 0 19 (by decide)).2.1 (by decide)

/-- C23 fails when the read of the store throws and the write works: the
error is caught inside getAllDecisions, which returns the empty list, and
saveDecision returns true after writing the new entry alone, so the decision
stored before is lost. When the read works a true result does mean that the
entry was appended. -/
theorem saveDecision_overwrites_after_failed_read :
    saveDecisionTry oneEntryStore readFails newEntry =
      .ok (true, { decisions := [newEntry], pendingContext := none }) ∧
    (saveDecision oneEntryStore readFails newEntry).1 = true ∧
    (saveDecision oneEntryStore readFails newEntry).2.decisions = [newEntry] ∧
    (saveDecision oneEntryStore readFails newEntry).2.decisions ≠
      oneEntryStore.decisions ++ [newEntry] ∧
    (∀ (store : Store) (faults : StoreFaults) (entry : DecisionEntry),
      faults.getFails = false → (saveDecision store faults entry).1 = true →
        (saveDecision store faults entry).2.decisions = store.decisions ++ [entry]) := by
  refine ⟨rfl, by decide, by decide, by decide, ?_⟩
  intro store faults entry hg ht
  rcases faults with ⟨g, w⟩
  cases w <;> simp_all [saveDecision, getAllDecisions]

/-! ### The throttle along a sequence of calls -/

lemma shouldThrottle_accept (st : Controller) (el : NodeId) (now : Int)
    (h : (shouldThrottle st el now).1 = false) :
    (shouldThrottle st el now).2 = { st with lastTriggerTime := now, lastElement := some el } ∧
    st.lastTriggerTime + 2500 ≤ now ∧
    (st.lastElement = some el → st.lastTriggerTime + 10000 ≤ now) := by
  unfold shouldThrottle at h ⊢
  split_ifs at h ⊢ with h1 h2
  refine ⟨rfl, by omega, ?_⟩
  intro he
  have : ¬ now - st.lastTriggerTime < 10000 := fun hlt => h1 ⟨he, hlt⟩
  omega

/-- Every accepted call lies at least 2500 ms after the last trigger of the
state the sequence starts in. -/
lemma acceptedCalls_after (st : Controller) (calls : List (NodeId × Int)) :
    ∀ a ∈ acceptedCalls st calls, st.lastTriggerTime + 2500 ≤ a.2 := by
  induction calls generalizing st with
  | nil => simp [acceptedCalls]
  | cons c rest ih =>
    obtain ⟨el, now⟩ := c
    intro a ha
    cases hb : (shouldThrottle st el now).1 with
    | true =>
      have hst := shouldThrottle_unchanged st el now hb
      simp only [acceptedCalls, hb, if_true] at ha
      have := ih _ a ha
      rwa [hst] at this
    | false =>
      obtain ⟨hst, hgap, -⟩ := shouldThrottle_accept st el now hb
      simp only [acceptedCalls, hb, Bool.false_eq_true, if_false, List.mem_cons] at ha
      rcases ha with rfl | ha
      · exact hgap
      · have := ih _ a ha
        rw [hst] at this
        simp only at this
        omega

lemma acceptedCalls_pairwise (st : Controller) (calls : List (NodeId × Int)) :
    (acceptedCalls st calls).Pairwise (fun a b => a.2 + 2500 ≤ b.2) := by
  induction calls generalizing st with
  | nil => simp [acceptedCalls]
  | cons c rest ih =>
    obtain ⟨el, now⟩ := c
    cases hb : (shouldThrottle st el now).1 with
    | true =>
      simp only [acceptedCalls, hb, if_true]
      exact ih _
    | false =>
      obtain ⟨hst, -, -⟩ := shouldThrottle_accept st el now hb
      simp only [acceptedCalls, hb, Bool.false_eq_true, if_false]
      refine List.Pairwise.cons ?_ (ih _)
      intro b hbm
      have := acceptedCalls_after _ rest b hbm
      rw [hst] at this
      exact this

/-- Consecutive accepted calls on one element are 10000 ms apart, counted from
the last trigger of the state the sequence starts in. -/
lemma acceptedCalls_chain (st : Controller) (calls : List (NodeId × Int)) (e : NodeId)
    (he : st.lastElement = some e) :
    List.Chain (fun a b => a.1 = b.1 → a.2 + 10000 ≤ b.2) (e, st.lastTriggerTime)
      (acceptedCalls st calls) := by
  induction calls generalizing st e with
  | nil => exact List.Chain.nil
  | cons c rest ih =>
    obtain ⟨el, now⟩ := c
    cases hb : (shouldThrottle st el now).1 with
    | true =>
      have hst := shouldThrottle_unchanged st el now hb
      simp only [acceptedCalls, hb, if_true]
      rw [hst]
      exact ih st e he
    | false =>
      obtain ⟨hst, -, hsame⟩ := shouldThrottle_accept st el now hb
      simp only [acceptedCalls, hb, Bool.false_eq_true, if_false]
      refine List.Chain.cons ?_ ?_
      · intro heq
        simp only at heq
        exact hsame (by rw [he, heq])
      · have := ih (shouldThrottle st el now).2 el (by rw [hst])
        rw [hst] at this ⊢
        exact this

lemma acceptedCalls_chain_start (st : Controller) (calls : List (NodeId × Int))
    (he : st.lastElement = none) :
    List.Chain' (fun a b => a.1 = b.1 → a.2 + 10000 ≤ b.2) (acceptedCalls st calls) := by
  induction calls generalizing st with
  | nil => exact List.chain'_nil
  | cons c rest ih =>
    obtain ⟨el, now⟩ := c
    cases hb : (shouldThrottle st el now).1 with
    | true =>
      have hst := shouldThrottle_unchanged st el now hb
      simp only [acceptedCalls, hb, if_true]
      rw [hst]
      exact ih st he
    | false =>
      obtain ⟨hst, -, -⟩ := shouldThrottle_accept st el now hb
      simp only [acceptedCalls, hb, Bool.false_eq_true, if_false]
      have := acceptedCalls_chain (shouldThrottle st el now).2 rest el (by rw [hst])
      rw [hst] at this ⊢
      exact this

lemma triggerTimes_chain (st : Controller) (calls : List (NodeId × Int)) :
    List.Chain (fun a b : Int => a ≤ b) st.lastTriggerTime (triggerTimes st calls) := by
  induction calls generalizing st with
  | nil => exact List.Chain.nil
  | cons c rest ih =>
    obtain ⟨el, now⟩ := c
    simp only [triggerTimes]
    refine List.Chain.cons ?_ (ih _)
    cases hb : (shouldThrottle st el now).1 with
    | true => rw [shouldThrottle_unchanged st el now hb]
    | false =>
      obtain ⟨hst, hgap, -⟩ := shouldThrottle_accept st el now hb
      rw [hst]
      simp only
      omega

/-- C24: along every sequence of shouldThrottle calls from the initial
throttle state (the clock readings need not even be non-decreasing), any two
accepted calls are at least 2500 ms apart, consecutive accepted calls on the
same element are at least 10000 ms apart, lastTriggerTime never decreases, and
the first call is accepted exactly when its clock reading is at least 2500. -/
theorem throttle_spacing (st : Controller) (calls : List (NodeId × Int)) :
    (acceptedCalls (initialThrottle st) calls).Pairwise (fun a b => a.2 + 2500 ≤ b.2) ∧
    List.Chain' (fun a b => a.1 = b.1 → a.2 + 10000 ≤ b.2)
      (acceptedCalls (initialThrottle st) calls) ∧
    List.Chain (fun a b : Int => a ≤ b) 0 (triggerTimes (initialThrottle st) calls) ∧
    (∀ (el : NodeId) (now : Int),
      (shouldThrottle (initialThrottle st) el now).1 = false ↔ 2500 ≤ now) := by
  refine ⟨acceptedCalls_pairwise _ calls, acceptedCalls_chain_start _ calls rfl,
    triggerTimes_chain (initialThrottle st) calls, ?_⟩
  intro el now
  unfold shouldThrottle initialThrottle
  simp only [reduceCtorEq, false_and, if_false, sub_zero]
  split_ifs with h <;> simp <;> omega

/-! ### Interception on the page -/

/-- C25: in every state the page reaches with detectionEnabled false,
handleClick on any click returns the controller (so the throttle state) as it
is and performs no effect, and a click on the page changes nothing at all:
no suppression, no Decision Surface, whether or not the listener is attached. -/
theorem no_interception_while_disabled (store : Store) (evs : List PageEvent) (env : Env)
    (event : ClickEvent)
    (h : (run (initialPage store) evs).1.ctl.detectionEnabled = false) :
    handleClick (run (initialPage store) evs).1.ctl env event =
      ((run (initialPage store) evs).1.ctl, []) ∧
    step (run (initialPage store) evs).1 (PageEvent.click env event) =
      ((run (initialPage store) evs).1, []) := by
  have hc : ∀ env2 : Env, handleClick (run (initialPage store) evs).1.ctl env2 event =
      ((run (initialPage store) evs).1.ctl, []) := by
    intro env2
    simp [handleClick, h]
  refine ⟨hc env, ?_⟩
  simp only [step, dispatchClick, hc]
  split_ifs <;> rfl

/-- C25 on the sample page where detection was switched off after a commit and
the timer of the replay attached the listener again: a click on the "Sign up"
link changes nothing. -/
theorem no_interception_while_disabled_witness :
    (run (initialPage emptyStore) disabledReattached).1.ctl.detectionEnabled = false ∧
    (run (initialPage emptyStore) disabledReattached).1.listenerAttached = true ∧
    (handleClick (run (initialPage emptyStore) disabledReattached).1.ctl windowEnv
        (plainClick 1) =
      ((run (initialPage emptyStore) disabledReattached).1.ctl, []) ∧
    step (run (initialPage emptyStore) disabledReattached).1
        (PageEvent.click windowEnv (plainClick 1)) =
      ((run (initialPage emptyStore) disabledReattached).1, [])) :=
  ⟨by decide, by decide,
    no_interception_while_disabled emptyStore disabledReattached windowEnv (plainClick 1)
      (by decide)⟩

/-- C22 fails while a Decision Surface is open: on the pending sample page,
whose surface belongs to the "Buy now" button, a click on the "Sign up" link is
suppressed, the link is the element resolved for it, and afterwards the only
host in the document is still the one of the button, so that no surface and no
replay belong to the suppressed click. It also fails when the read of
pendingContext rejects: the click on the button is suppressed, inject is not
called and the document holds no host. -/
theorem suppressed_click_without_surface :
    pendingPage.pending = true ∧
    findRelevantElement windowEnv.dom (plainClick 1).target = some 1 ∧
    Effect.preventDefault ∈ (step pendingPage (PageEvent.click windowEnv (plainClick 1))).2 ∧
    Effect.stopPropagation ∈ (step pendingPage (PageEvent.click windowEnv (plainClick 1))).2 ∧
    (step pendingPage (PageEvent.click windowEnv (plainClick 1))).1.hosts.map
      (fun h => h.element) = [0] ∧
    (step armedPage (PageEvent.click rejectingEnv (plainClick 0))).2 =
      [Effect.preventDefault, Effect.stopPropagation, Effect.storageGet [pendingContextKey]] ∧
    (step armedPage (PageEvent.click rejectingEnv (plainClick 0))).1.hosts.length = 0 := by
  refine ⟨by decide, by decide, by decide, by decide, by decide, by decide, by decide⟩

end DecisionTrace
